import Mathlib

/-!
Verification development for the xerauditron website-auditing tool.

The repository's four API routes (quick-links extraction, full analysis,
deep analysis, form validation) are shallowly embedded below.  Pure
helper functions of the source (fetch strategy loop, link classification,
form classification, accessibility and SEO scoring, crawl budgeting,
fallback estimation) are translated directly; the external collaborators
(the HTTP transport, the cheerio DOM parser, the regex engine and the
random source) are supplied as explicit oracle parameters, so every
definition is executable and the control flow of each route is preserved.

Absolute URLs are modelled by a structured `Url` value (scheme, host,
path); the WHATWG URL parser used by the source is modelled by
`parseAbsUrl`/`resolveUrl`, and serialization by `Url.toHref`.
-/

namespace Xeraud

/-! ### String primitives

The JavaScript string operations the source uses (`includes`, `trim`,
`toLowerCase`, `toUpperCase`, `startsWith`, `substring`) are modelled by
structurally recursive functions over the character list of a `String`,
so that every definition evaluates inside the kernel. -/

/-- Whether `needle` occurs as a contiguous sublist of `hay`
(JavaScript `String.includes` on character lists). -/
def occursIn (hay needle : List Char) : Bool :=
  match hay with
  | [] => needle.isEmpty
  | _ :: rest => needle.isPrefixOf hay || occursIn rest needle

/-- Substring test: `hasSub s sub` holds when `sub` occurs inside `s`
(JavaScript `String.includes`). -/
def hasSub (s sub : String) : Bool :=
  occursIn s.data sub.data

/-- `strStartsWith s p`: `s` starts with `p`. -/
def strStartsWith (s p : String) : Bool :=
  p.data.isPrefixOf s.data

/-- Drop the first `n` characters. -/
def strDrop (s : String) (n : Nat) : String :=
  ⟨s.data.drop n⟩

/-- Keep the first `n` characters (JavaScript `substring(0, n)`). -/
def strTake (s : String) (n : Nat) : String :=
  ⟨s.data.take n⟩

/-- Whether the string is empty. -/
def strIsEmpty (s : String) : Bool :=
  s.data.isEmpty

/-- Character count. -/
def strLength (s : String) : Nat :=
  s.data.length

/-- Whitespace characters recognized by the trim model. -/
def isWsChar (c : Char) : Bool :=
  c = ' ' || c = '\t' || c = '\n' || c = '\r'

/-- JavaScript `trim`: strip leading and trailing whitespace. -/
def strTrim (s : String) : String :=
  ⟨((s.data.dropWhile isWsChar).reverse.dropWhile isWsChar).reverse⟩

/-- ASCII lowercase of one character. -/
def lowerChar (c : Char) : Char :=
  if 65 ≤ c.toNat && c.toNat ≤ 90 then Char.ofNat (c.toNat + 32) else c

/-- ASCII uppercase of one character. -/
def upperChar (c : Char) : Char :=
  if 97 ≤ c.toNat && c.toNat ≤ 122 then Char.ofNat (c.toNat - 32) else c

/-- JavaScript `toLowerCase` (ASCII model). -/
def strLower (s : String) : String :=
  ⟨s.data.map lowerChar⟩

/-- JavaScript `toUpperCase` (ASCII model). -/
def strUpper (s : String) : String :=
  ⟨s.data.map upperChar⟩

/-- A parsed absolute URL: scheme, hostname and path (query and fragment,
when present, are kept inside `path`; they play no role in the source's
hostname comparisons). -/
structure Url where
  scheme : String
  host : String
  path : String
deriving Repr, DecidableEq, Inhabited

/-- Split a character list at the first slash: the part before it is the
hostname, the remainder (slash included) is the path. -/
def hostPath : List Char → List Char × List Char
  | [] => ([], [])
  | c :: rest =>
    if c = '/' then ([], c :: rest)
    else
      let (h, p) := hostPath rest
      (c :: h, p)

/-- Model of `new URL(s)` for absolute http(s) URLs: fails (like the
WHATWG parser throwing) when the scheme is missing or the host is empty. -/
def parseAbsUrl (s : String) : Option Url :=
  if strStartsWith s "https://" then parseRest "https" (strDrop s 8)
  else if strStartsWith s "http://" then parseRest "http" (strDrop s 7)
  else none
where
  parseRest (scheme : String) (rest : String) : Option Url :=
    let (h, p) := hostPath rest.toList
    if h.isEmpty then none
    else some ⟨scheme, ⟨h⟩, if p.isEmpty then "/" else ⟨p⟩⟩

/-- Serialize a `Url` back to its href string, as `URL.href` does
(an empty path was normalized to "/" by the parser). -/
def Url.toHref (u : Url) : String :=
  u.scheme ++ "://" ++ u.host ++ u.path

/-- The directory part of a path: everything up to and including the last
slash.  Used for resolving relative references. -/
def dirOf (p : String) : String :=
  ⟨(p.toList.reverse.dropWhile (fun c => c ≠ '/')).reverse⟩

/-- Model of `new URL(href, base)`: an absolute href is parsed on its
own; a root-relative href replaces the base path; any other href is
resolved against the directory of the base path.  Fails when the href
claims an http(s) scheme but is malformed. -/
def resolveUrl (base : Url) (href : String) : Option Url :=
  match parseAbsUrl href with
  | some u => some u
  | none =>
    if strStartsWith href "https://" || strStartsWith href "http://" then none
    else if strStartsWith href "/" then some { base with path := href }
    else some { base with path := dirOf base.path ++ href }

/-- Hostname of a serialized URL string, when it parses. -/
def urlHostname (s : String) : Option String :=
  (parseAbsUrl s).map Url.host

/-- Route-entry URL normalization shared by the quick-links, full-analysis
and form-validation routes: trim, then prepend "https://" when no scheme
is present. -/
def normalizeUrl (u : String) : String :=
  let t := strTrim u
  if strStartsWith t "http://" || strStartsWith t "https://" then t
  else "https://" ++ t

/-! ## Fetch strategy engine (`fetchWithStrategies`) -/

/-- Outcome of one HTTP request as seen by the route code: a response
with a status and a body, or a network error / timeout. -/
inductive NetResult where
  | response (status : Nat) (html : String)
  | netError (msg : String)
deriving Repr, DecidableEq, Inhabited

/-- `response.ok`: status in the 2xx range. -/
def isOk (status : Nat) : Bool :=
  200 ≤ status && status < 300

/-- Whether a transport outcome is a 2xx response. -/
def NetResult.isOkResp : NetResult → Bool
  | .response s _ => isOk s
  | .netError _ => false

/-- The fixed strategy rotation of `fetchWithStrategies`. -/
def strategies : List String := ["standard", "mobile", "crawler"]

/-- The flattened attempt × strategy matrix, in execution order. -/
def attemptMatrix (maxRetries : Nat) : List (Nat × String) :=
  (List.range maxRetries).flatMap (fun a => strategies.map (fun s => (a, s)))

/-- Inner loop of `fetchWithStrategies`: issue the `k`-th request; a 2xx
response returns immediately with the body and the number of requests
issued; a 403/429, any other non-2xx status, or a network error records a
last error and continues with the next strategy/attempt. -/
def runFetch (net : Nat → NetResult) :
    List (Nat × String) → Nat → Option String → Except String (String × Nat)
  | [], _, lastErr => .error (lastErr.getD "All fetch strategies failed")
  | _ :: rest, k, _lastErr =>
    match net k with
    | .response s html =>
      if isOk s then .ok (html, k + 1)
      else if s = 403 || s = 429 then
        runFetch net rest (k + 1) (some ("HTTP " ++ toString s))
      else
        runFetch net rest (k + 1) (some ("HTTP " ++ toString s))
    | .netError m => runFetch net rest (k + 1) (some m)

/-- `fetchWithStrategies(url, maxRetries)`: run the retry × strategy
matrix over the transport; the successful result carries how many
requests were issued before (and including) the first success. -/
def fetchWithStrategies (net : Nat → NetResult) (maxRetries : Nat := 3) :
    Except String (String × Nat) :=
  runFetch net (attemptMatrix maxRetries) 0 none

/-! ## Link extraction -/

/-- One `<a>` element as cheerio reports it: `href` attribute, text
content, and `title` attribute (empty string when absent, matching the
source's `attr("title") || ""`). -/
structure AnchorEl where
  href : String
  text : String
  title : String
deriving Repr, DecidableEq, Inhabited

/-- A classified link with its resolved absolute URL kept structured. -/
structure Link where
  url : Url
  text : String
  title : String
deriving Repr, DecidableEq, Inhabited

/-- A link as it appears in a response body: plain strings. -/
structure RawLink where
  url : String
  text : String
  title : String
deriving Repr, DecidableEq, Inhabited

/-- Serialize a structured link for a response body. -/
def Link.out (l : Link) : RawLink :=
  ⟨l.url.toHref, l.text, l.title⟩

/-- Anchor targets the extractors skip: empty href, fragment, javascript
and mailto targets. -/
def skipHref (href : String) : Bool :=
  strIsEmpty href || strStartsWith href "#" || strStartsWith href "javascript:" ||
    strStartsWith href "mailto:"

/-- Quick-extraction anchor text: trim, truncate to 100 characters, and
fall back to the placeholder "No text" when empty. -/
def quickText (t : String) : String :=
  let s := strTake (strTrim t) 100
  if strIsEmpty s then "No text" else s

/-- Full-analysis anchor text: trim and truncate only. -/
def fullText (t : String) : String :=
  strTake (strTrim t) 100

/-- The resolved absolute URL of an anchor element, unless it is skipped
or fails to resolve. -/
def anchorUrl (base : Url) (e : AnchorEl) : Option Url :=
  if skipHref e.href then none else resolveUrl base e.href

/-- One iteration of the cheerio link loop shared by the quick-links and
full-analysis routes: resolve the href, classify by hostname equality
with the base URL, and append to the matching list unless that list
already holds the URL (first occurrence wins). -/
def cheerioStep (tf : String → String) (base : Url)
    (acc : List Link × List Link) (e : AnchorEl) : List Link × List Link :=
  match anchorUrl base e with
  | none => acc
  | some u =>
    let linkData : Link := ⟨u, tf e.text, e.title⟩
    if u.host = base.host then
      if acc.1.any (fun l => l.url = u) then acc
      else (acc.1 ++ [linkData], acc.2)
    else
      if acc.2.any (fun l => l.url = u) then acc
      else (acc.1, acc.2 ++ [linkData])

/-- The cheerio link loop over the page's anchor elements. -/
def cheerioLoop (tf : String → String) (base : Url) :
    List AnchorEl → (List Link × List Link) → List Link × List Link
  | [], acc => acc
  | e :: es, acc => cheerioLoop tf base es (cheerioStep tf base acc e)

/-- Structured-tier link extraction: internal and external links of a
page, classified by hostname and deduplicated per list. -/
def extractCheerio (tf : String → String) (base : Url) (es : List AnchorEl) :
    List Link × List Link :=
  cheerioLoop tf base es ([], [])

/-- One iteration of `extractLinksFromText`: the pattern tier processes
regex matches `(href, text)`, dedups across both lists through the
`foundUrls` set, and classifies by hostname. -/
def patternStep (base : Url) (st : List Url × List Link × List Link)
    (m : String × String) : List Url × List Link × List Link :=
  if skipHref m.1 then st
  else match resolveUrl base m.1 with
    | none => st
    | some u =>
      if st.1.contains u then st
      else
        let linkData : Link := ⟨u, quickText m.2, ""⟩
        if u.host = base.host then
          (u :: st.1, st.2.1 ++ [linkData], st.2.2)
        else
          (u :: st.1, st.2.1, st.2.2 ++ [linkData])

/-- The pattern-tier loop over the regex match stream. -/
def patternLoop (base : Url) :
    List (String × String) → (List Url × List Link × List Link) →
    List Url × List Link × List Link
  | [], st => st
  | m :: ms, st => patternLoop base ms (patternStep base st m)

/-- `extractLinksFromText(html, baseUrl)` over the regex match stream:
returns empty lists when the base URL does not parse (the function's own
try/catch). -/
def extractLinksFromText (baseUrl : String) (ms : List (String × String)) :
    List Link × List Link :=
  match parseAbsUrl baseUrl with
  | none => ([], [])
  | some base => (patternLoop base ms ([], [], [])).2

/-! ## Deep-analysis internal-link extraction (analyze-all-links route) -/

/-- One iteration of the deep-analysis link loop.  Unlike the other
routes this loop classifies by string prefix: an absolute href is kept
only when it starts with the `baseUrl` string
(`protocol + "//" + host`), a root-relative href is concatenated onto
`baseUrl`, fragment/mailto/tel targets are skipped, and any other href
is resolved against the page URL.  The resulting `fullUrl` is added to
the internal list when it starts with `baseUrl` and is not yet present. -/
def deepStep (target : Url) (acc : List RawLink) (e : AnchorEl) : List RawLink :=
  let baseUrl := target.scheme ++ "://" ++ target.host
  if strIsEmpty e.href then acc
  else
    let fullUrl? : Option String :=
      if strStartsWith e.href "http" then
        if strStartsWith e.href baseUrl then some e.href else none
      else if strStartsWith e.href "/" then some (baseUrl ++ e.href)
      else if strStartsWith e.href "#" || strStartsWith e.href "mailto:" ||
          strStartsWith e.href "tel:" then none
      else (resolveUrl target e.href).map Url.toHref
    match fullUrl? with
    | none => acc
    | some fullUrl =>
      if strStartsWith fullUrl baseUrl && !(acc.any (fun l => l.url = fullUrl)) then
        acc ++ [⟨fullUrl, strTake (strTrim e.text) 100, strTake e.title 100⟩]
      else acc

/-- The deep-analysis internal-link loop over the seed page's anchors. -/
def deepExtract (target : Url) (es : List AnchorEl) : List RawLink :=
  es.foldl (deepStep target) []

/-! ## Crawler link collection (`extractLinksFromHtml`, form-validation) -/

/-- Loop of `extractLinksFromHtml`: collect serialized same-origin
absolute URLs, deduplicated in first-occurrence order (the `Set`). -/
def sameOriginLoop (base : Url) : List String → List String → List String
  | [], acc => acc
  | href :: rest, acc =>
    if skipHref href then sameOriginLoop base rest acc
    else match resolveUrl base href with
      | none => sameOriginLoop base rest acc
      | some u =>
        if u.host = base.host then
          let s := u.toHref
          if acc.contains s then sameOriginLoop base rest acc
          else sameOriginLoop base rest (acc ++ [s])
        else sameOriginLoop base rest acc

/-- `extractLinksFromHtml(html, baseUrl)`: same-origin links of a page,
from the cheerio tier when it is available (`els?`) and from the regex
tier otherwise, capped at 20 candidates. -/
def extractLinksFromHtml (baseUrl : String) (els? : Option (List AnchorEl))
    (rxHrefs : List String) : List String :=
  match parseAbsUrl baseUrl with
  | none => []
  | some base =>
    let hrefs := match els? with
      | some els => els.map AnchorEl.href
      | none => rxHrefs
    (sameOriginLoop base hrefs []).take 20

/-! ## Form classification and form accessibility scoring -/

/-- One input/select/textarea of a form, with the attributes the source
reads (the DOM-side label resolution chain is performed by the extractor
oracle and its result stored in `label`). -/
structure FormInput where
  type : String
  name : String
  id : String
  label : String
  required : Bool
deriving Repr, DecidableEq, Inhabited

/-- The effective input type: lowercased, defaulting to "text" when the
attribute is absent (`input.type?.toLowerCase() || "text"`). -/
def inputTypeOf (i : FormInput) : String :=
  let t := strLower i.type
  if strIsEmpty t then "text" else t

/-- `classifyForm(inputs, formHtml, pageUrl)`: ordered rule list, first
match wins. -/
def classifyForm (inputs : List FormInput) (formHtml : String)
    (pageUrl : String) : String :=
  let inputTypes := inputs.map inputTypeOf
  let formText := strLower formHtml
  let urlPath := strLower pageUrl
  if inputTypes.contains "password" &&
      (inputTypes.contains "email" || inputTypes.contains "text") &&
      (hasSub formText "login" || hasSub formText "sign in" ||
        hasSub urlPath "login") then
    "Login Form"
  else if inputTypes.contains "password" && inputs.length ≥ 3 &&
      (hasSub formText "register" || hasSub formText "sign up" ||
        hasSub formText "create account") then
    "Registration Form"
  else if inputTypes.contains "email" &&
      (inputTypes.contains "textarea" || hasSub formText "message") &&
      (hasSub formText "contact" || hasSub formText "get in touch" ||
        hasSub urlPath "contact") then
    "Contact Form"
  else if inputTypes.contains "email" && inputs.length ≤ 2 &&
      (hasSub formText "newsletter" || hasSub formText "subscribe" ||
        hasSub formText "updates") then
    "Newsletter Signup"
  else if inputTypes.contains "search" || hasSub formText "search" then
    "Search Form"
  else if hasSub formText "payment" || hasSub formText "credit card" ||
      hasSub formText "billing" then
    "Payment Form"
  else if inputTypes.contains "date" || hasSub formText "booking" ||
      hasSub formText "reservation" then
    "Booking Form"
  else if hasSub formText "quote" || hasSub formText "estimate" ||
      hasSub formText "pricing" then
    "Quote Request Form"
  else if hasSub formText "support" || hasSub formText "help" ||
      hasSub formText "ticket" then
    "Support Form"
  else if hasSub formText "feedback" || hasSub formText "review" ||
      hasSub formText "rating" then
    "Feedback Form"
  else
    "General Form"

/-- Whether some input carries a non-blank resolved label. -/
def hasLabels (inputs : List FormInput) : Bool :=
  inputs.any (fun i => !(strIsEmpty (strTrim i.label)))

/-- The form-variant `calculateAccessibilityScore(inputs, formHtml)`:
start at 100 and apply five independent fixed deductions, then clamp. -/
def formAccessibilityScore (inputs : List FormInput) (formHtml : String) : Int :=
  let score : Int := 100
  let score := if hasLabels inputs then score else score - 20
  let score :=
    if hasSub formHtml "required" || hasSub formHtml "*" then score
    else score - 15
  let score :=
    if hasSub formHtml "<fieldset" || hasSub formHtml "role=\"group\"" then score
    else score - 10
  let score :=
    if hasSub formHtml "aria-" || hasSub formHtml "role=" then score
    else score - 15
  let score :=
    if inputs.any (fun i =>
        ["email", "tel", "url", "number", "date"].contains (strLower i.type)) then
      score
    else score - 10
  max 0 (min 100 score)

/-- The cheerio-level facts about one `<form>` element, as read by
`analyzeForms` (inputs with resolved labels, the form's inner HTML, and
its method/action attributes with "" for absent). -/
structure FormSpec where
  inputs : List FormInput
  innerHtml : String
  method : String
  action : String
deriving Repr, DecidableEq, Inhabited

/-- One entry of `detailed_forms`. -/
structure FormOut where
  page_url : String
  form_index : Nat
  input_count : Nat
  input_types : List String
  form_method : String
  form_action : String
  form_classification : String
  has_labels : Bool
  accessibility_score : Int
deriving Repr, DecidableEq, Inhabited

/-- First-occurrence deduplication, as a JavaScript `Set` iterates. -/
def dedupFirst (seen : List String) : List String → List String
  | [] => []
  | x :: xs =>
    if seen.contains x then dedupFirst seen xs
    else x :: dedupFirst (x :: seen) xs

/-- `analyzeForms(html, pageUrl)` over the form specs of a page: forms
with at least two inputs are classified and scored; `form_index` is the
form's position among all forms of the page. -/
def analyzeForms (specs : List FormSpec) (pageUrl : String) : List FormOut :=
  (specs.enum.filterMap (fun (formIndex, spec) =>
    if spec.inputs.length ≥ 2 then
      some
        { page_url := pageUrl
          form_index := formIndex
          input_count := spec.inputs.length
          input_types := dedupFirst [] (spec.inputs.map FormInput.type)
          form_method := strUpper (if strIsEmpty spec.method then "GET" else spec.method)
          form_action := spec.action
          form_classification := classifyForm spec.inputs spec.innerHtml pageUrl
          has_labels := hasLabels spec.inputs
          accessibility_score := formAccessibilityScore spec.inputs spec.innerHtml }
    else none))

/-! ## Page scoring engine (analyze-all-links route) -/

/-- An `<a href>` element as the scoring functions query it; attribute
values use "" for an absent attribute, matching JavaScript falsiness. -/
structure LinkEl where
  href : String
  text : String
  ariaLabel : String
  title : String
  ariaLabelledby : String
deriving Repr, DecidableEq, Inhabited

/-- A labelable input (`input[type=text|email|password|tel]`, textarea or
select) as the accessibility score queries it; `labelFor` records whether
the document holds a `label[for=id]` element for this input's id. -/
structure InputEl where
  id : String
  ariaLabel : String
  ariaLabelledby : String
  labelFor : Bool
deriving Repr, DecidableEq, Inhabited

/-- The extracted page features the two scoring functions read.  Each
image is represented by whether its `alt` attribute is truthy. -/
structure Page where
  title : String
  metaDescription : String
  h1Texts : List String
  h2Count : Nat
  h3Count : Nat
  h4Count : Nat
  images : List Bool
  links : List LinkEl
  inputs : List InputEl
  htmlLang : String
  hasViewport : Bool
  hasCanonical : Bool
  ogCount : Nat
  jsonLdCount : Nat
deriving Repr, DecidableEq, Inhabited

/-- Images whose `alt` attribute is falsy. -/
def imagesWithoutAlt (p : Page) : Nat :=
  (p.images.filter (fun hasAlt => !hasAlt)).length

/-- Proportional deduction for missing alt text at a given weight: when
images exist and their alt-text percentage is below 100, deduct
`(100 - percentage) * weight`. -/
def altDeduction (p : Page) (weight : ℚ) : ℚ :=
  let total := p.images.length
  let without := imagesWithoutAlt p
  if 0 < total then
    let pct : ℚ := ((total : ℚ) - without) / total * 100
    if pct < 100 then (100 - pct) * weight else 0
  else 0

/-- Links with no accessible name: no trimmed text, aria-label, title or
aria-labelledby. -/
def linksWithoutName (p : Page) : Nat :=
  (p.links.filter (fun l =>
    strIsEmpty (strTrim l.text) && strIsEmpty l.ariaLabel &&
      strIsEmpty l.title && strIsEmpty l.ariaLabelledby)).length

/-- Proportional deduction for inaccessible links, weighted at 20%. -/
def linkNameDeduction (p : Page) : ℚ :=
  let total := p.links.length
  let without := linksWithoutName p
  if 0 < total then
    let pct : ℚ := ((total : ℚ) - without) / total * 100
    if pct < 100 then (100 - pct) * (1 / 5) else 0
  else 0

/-- Inputs with no resolvable label: no matching `label[for]`, no
aria-label, no aria-labelledby. -/
def inputsWithoutLabels (p : Page) : Nat :=
  (p.inputs.filter (fun i =>
    !(!(strIsEmpty i.id) && i.labelFor) && strIsEmpty i.ariaLabel &&
      strIsEmpty i.ariaLabelledby)).length

/-- Proportional deduction for unlabeled inputs, weighted at 25%. -/
def inputLabelDeduction (p : Page) : ℚ :=
  let total := p.inputs.length
  let without := inputsWithoutLabels p
  if 0 < total then
    let pct : ℚ := ((total : ℚ) - without) / total * 100
    if pct < 100 then (100 - pct) * (1 / 4) else 0
  else 0

/-- Deduction for the `<h1>` structure: 15 when absent, 10 when multiple. -/
def h1Deduction (p : Page) : ℚ :=
  if p.h1Texts.length = 0 then 15
  else if p.h1Texts.length > 1 then 10
  else 0

/-- Skip-navigation links: fragment anchors whose lowercased text
contains "skip" or "jump". -/
def skipLinkCount (p : Page) : Nat :=
  (p.links.filter (fun l =>
    strStartsWith l.href "#" &&
      (hasSub (strLower l.text) "skip" || hasSub (strLower l.text) "jump"))).length

/-- `calculateAccessibilityScore(page$)`: 100 minus the six weighted
deductions, rounded and clamped below at 0. -/
def calculateAccessibilityScore (p : Page) : Int :=
  let deductions : ℚ :=
    altDeduction p (3 / 10) + h1Deduction p + linkNameDeduction p +
      inputLabelDeduction p + (if strIsEmpty p.htmlLang then 10 else 0) +
      (if skipLinkCount p = 0 then 5 else 0)
  max 0 (round ((100 : ℚ) - deductions))

/-- SEO deduction for the title tag. -/
def titleDeduction (p : Page) : ℚ :=
  let t := strTrim p.title
  if strIsEmpty t then 20
  else if strLength t < 30 || strLength t > 60 then 10
  else 0

/-- SEO deduction for the meta description. -/
def descriptionDeduction (p : Page) : ℚ :=
  if strIsEmpty p.metaDescription then 15
  else if strLength p.metaDescription < 120 || strLength p.metaDescription > 160 then 8
  else 0

/-- SEO deduction for the `<h1>` structure, including the length check on
a single h1. -/
def seoH1Deduction (p : Page) : ℚ :=
  if p.h1Texts.length = 0 then 15
  else if p.h1Texts.length > 1 then 10
  else
    let t := strTrim (p.h1Texts.headD "")
    if strLength t < 20 || strLength t > 70 then 5 else 0

/-- Internal links in the SEO sense: href is truthy and starts with none
of "http", "mailto:", "tel:". -/
def seoInternalLinkCount (p : Page) : Nat :=
  (p.links.filter (fun l =>
    !(strIsEmpty l.href) && !(strStartsWith l.href "http") &&
      !(strStartsWith l.href "mailto:") && !(strStartsWith l.href "tel:"))).length

/-- `calculateSEOScore(page$)`: 100 minus the ten deductions, rounded and
clamped below at 0. -/
def calculateSEOScore (p : Page) : Int :=
  let deductions : ℚ :=
    titleDeduction p + descriptionDeduction p + seoH1Deduction p +
      (if p.h2Count = 0 && (p.h3Count > 0 || p.h4Count > 0) then 8 else 0) +
      altDeduction p (3 / 20) +
      (if seoInternalLinkCount p = 0 then 10 else 0) +
      (if p.hasViewport then 0 else 8) +
      (if p.hasCanonical then 0 else 5) +
      (if p.ogCount = 0 then 5 else 0) +
      (if p.jsonLdCount = 0 then 5 else 0)
  max 0 (round ((100 : ℚ) - deductions))

/-! ## Fallback estimators -/

/-- Domain substrings marking known large sites. -/
def largeSiteNames : List String :=
  ["amazon", "google", "facebook", "microsoft", "apple", "netflix"]

def fallbackPageNames : List String :=
  ["Home", "About Us", "Contact", "Services", "Products", "Blog", "News",
    "Support", "Careers"]

def fallbackPagePaths : List String :=
  ["about", "contact", "services", "products", "blog", "news", "support",
    "careers"]

def fallbackExtHosts : List String :=
  ["facebook.com", "twitter.com", "linkedin.com", "instagram.com",
    "youtube.com", "github.com"]

def fallbackExtNames : List String :=
  ["Facebook", "Twitter", "LinkedIn", "Instagram", "YouTube", "GitHub"]

/-- `generateFallbackData(url)`: synthesized link lists seeded by domain
heuristics; the two `Math.random()` draws are supplied as `r1`, `r2`.
Fails (the `new URL(url)` throw) when the URL does not parse. -/
def generateFallbackData (url : String) (r1 r2 : Nat) :
    Option (List RawLink × List RawLink) :=
  match parseAbsUrl url with
  | none => none
  | some u =>
    let domain := u.host
    let isLargesite := largeSiteNames.any (fun n => hasSub domain n)
    let baseInternal := if isLargesite then r1 % 50 + 20 else r1 % 20 + 5
    let baseExternal := if isLargesite then r2 % 30 + 10 else r2 % 15 + 2
    let internal := (List.range baseInternal).map (fun i =>
      { url := url ++ (if i = 0 then ""
          else "/" ++ fallbackPagePaths.getD (i % 8) "")
        text := fallbackPageNames.getD (i % 9) ("Page " ++ toString (i + 1))
        title := "Internal link " ++ toString (i + 1) : RawLink })
    let external := (List.range baseExternal).map (fun i =>
      { url := "https://" ++ fallbackExtHosts.getD (i % 6) ""
        text := fallbackExtNames.getD (i % 6) ("External " ++ toString (i + 1))
        title := "External link " ++ toString (i + 1) : RawLink })
    some (internal, external)

/-- The fields produced by `generateFormEstimates(url)`. -/
structure FormEstimates where
  total_pages_crawled : Nat
  forms_found : Nat
  forms_with_multiple_inputs : Nat
  detailed_forms : List FormOut
  form_types_breakdown : List (String × Nat)
  pages_with_forms : List String
deriving Repr, DecidableEq, Inhabited

/-- `generateFormEstimates(url)`: synthesized form statistics seeded by
domain heuristics; `rand` models the random source (one draw per index).
Fails when the URL does not parse. -/
def generateFormEstimates (url : String) (rand : Nat → Nat) :
    Option FormEstimates :=
  match parseAbsUrl url with
  | none => none
  | some u =>
    let domain := u.host
    let isEcommerce := hasSub domain "shop" || hasSub domain "store" ||
      hasSub domain "buy"
    let isBusiness := hasSub domain "business" || hasSub domain "company" ||
      hasSub domain "corp"
    let estimatedForms0 := rand 0 % 5 + 2
    let formsMulti0 := estimatedForms0 * 7 / 10
    let estimatedForms := if isEcommerce then estimatedForms0 + 3 else estimatedForms0
    let formsMulti := if isEcommerce then formsMulti0 + 2 else formsMulti0
    let formTypes := ["Contact Form", "Newsletter Signup", "Search Form"] ++
      (if isEcommerce then ["Registration Form", "Login Form", "Payment Form"]
       else []) ++
      (if isBusiness then ["Quote Request Form", "Support Form"] else [])
    let breakdown := formTypes.enum.map (fun (i, t) => (t, rand (10 + i) % 2 + 1))
    let detailed := (List.range formsMulti).map (fun i =>
      { page_url := if i = 0 then url
          else url ++ "/" ++
            (["contact", "login", "register", "checkout", "support"].getD (i % 5) "")
        form_index := i
        input_count := rand (30 + i) % 6 + 2
        input_types :=
          ["text", "email", "password", "submit"].take (rand (50 + i) % 3 + 2)
        form_method := if rand (70 + i) % 10 ≥ 3 then "POST" else "GET"
        form_action := "/submit"
        form_classification := formTypes.getD (i % formTypes.length) ""
        has_labels := rand (90 + i) % 10 < 8
        accessibility_score := (rand (110 + i) % 40 + 60 : Nat) : FormOut })
    some
      { total_pages_crawled := rand 1 % 10 + 5
        forms_found := estimatedForms
        forms_with_multiple_inputs := formsMulti
        detailed_forms := detailed
        form_types_breakdown := breakdown
        pages_with_forms := detailed.map FormOut.page_url }

/-! ## Route handlers -/

/-- The external collaborators of one request: the HTTP transport
(`net url k` is the outcome of the `k`-th request issued for `url`), the
cheerio anchor/form extraction (`none` models `cheerio.load` throwing),
the regex match stream, the random source, and the incoming request's
own URL (`request.url`). -/
structure Env where
  net : String → Nat → NetResult
  dom : String → Option (List AnchorEl)
  rxMatches : String → List (String × String)
  formsOf : String → List FormSpec
  rand : Nat → Nat
  reqUrl : String

/-- Response body of the quick-links route. -/
structure QuickBody where
  internal_links : List RawLink
  external_links : List RawLink
  total : Nat
  status : String
  method : String
  note : Option String
  error : Option String
deriving Repr, DecidableEq, Inhabited

/-- Quick-links route result: a hard 400 client error, or a 200 body. -/
inductive QuickResp where
  | err400 (msg : String)
  | ok200 (body : QuickBody)
deriving Repr, DecidableEq, Inhabited

/-- The pattern-extraction tier of the quick-links route: a 200 body when
the pattern tier finds any link, otherwise nothing. -/
def quickPatternTier (env : Env) (targetUrl html : String) : Option QuickBody :=
  let (int, ext) := extractLinksFromText targetUrl (env.rxMatches html)
  if int.length > 0 || ext.length > 0 then
    some
      { internal_links := int.map Link.out
        external_links := ext.map Link.out
        total := int.length + ext.length
        status := "success"
        method := "pattern_extraction"
        note := none
        error := none }
  else none

/-- The quick-links POST handler: validate the URL field, normalize, try
the strategy-rotating fetch, then the cheerio tier, then the pattern
tier; on total fetch failure or zero extracted links fall back to the
estimator, and on an internal throw (an unparseable target inside the
estimator) produce the `partial_success` placeholder. -/
def quickLinksPost (env : Env) (body : Option String) : QuickResp :=
  match body with
  | none => .err400 "URL is required"
  | some url =>
    if strIsEmpty url then .err400 "URL is required"
    else
      let targetUrl := normalizeUrl url
      let viaExtraction : Option QuickBody :=
        match fetchWithStrategies (env.net targetUrl) 3 with
        | .error _ => none
        | .ok (html, _) =>
          let cheerioTier : Option (List Link × List Link) :=
            match env.dom html, parseAbsUrl targetUrl with
            | some els, some base => some (extractCheerio quickText base els)
            | _, _ => none
          match cheerioTier with
          | some (int, ext) =>
            if int.length > 0 || ext.length > 0 then
              some
                { internal_links := int.map Link.out
                  external_links := ext.map Link.out
                  total := int.length + ext.length
                  status := "success"
                  method := "cheerio_parsing"
                  note := none
                  error := none }
            else quickPatternTier env targetUrl html
          | none => quickPatternTier env targetUrl html
      match viaExtraction with
      | some b => .ok200 b
      | none =>
        match generateFallbackData targetUrl (env.rand 0) (env.rand 1) with
        | some (int, ext) =>
          .ok200
            { internal_links := int
              external_links := ext
              total := int.length + ext.length
              status := "success"
              method := "intelligent_estimation"
              note := some "Website blocked direct access. Showing realistic estimates based on site analysis."
              error := none }
        | none =>
          .ok200
            { internal_links := [⟨env.reqUrl, "Home", "Homepage"⟩]
              external_links := [⟨"https://www.google.com", "Google", "Google Search"⟩]
              total := 2
              status := "partial_success"
              method := "error_fallback"
              note := some "Analysis partially completed."
              error := some "Analysis failed: Invalid URL" }

/-- Response body of the full-analysis route (the success branch is
modelled down to its link lists; the CMS/analytics/elements sections of
the body are not needed by any claim and are not modelled). -/
structure FullBody where
  url : String
  status : String
  total_links : Nat
  internal_links : List RawLink
  external_links : List RawLink
deriving Repr, DecidableEq, Inhabited

/-- Full-analysis route result: an error response with its HTTP status
code (400 or 500), or a 200 body. -/
inductive FullResp where
  | err (code : Nat) (msg : String)
  | ok200 (body : FullBody)
deriving Repr, DecidableEq, Inhabited

/-- The full-analysis POST handler: validate, normalize, one plain fetch;
any fetch rejection, non-2xx status or parse throw reaches the outer
catch and becomes a 500 error response. -/
def fullAnalysisPost (env : Env) (body : Option String) : FullResp :=
  match body with
  | none => .err 400 "URL is required"
  | some url =>
    if strIsEmpty url then .err 400 "URL is required"
    else
      let targetUrl := normalizeUrl url
      match env.net targetUrl 0 with
      | .netError m => .err 500 ("Analysis failed: " ++ m)
      | .response s html =>
        if !isOk s then .err 500 ("Analysis failed: HTTP " ++ toString s)
        else
          match env.dom html, parseAbsUrl targetUrl with
          | some els, some base =>
            let (int, ext) := extractCheerio fullText base els
            .ok200
              { url := targetUrl
                status := "success"
                total_links := int.length + ext.length
                internal_links := int.map Link.out
                external_links := ext.map Link.out }
          | _, _ => .err 500 "Analysis failed: parse error"

/-- Response body of the deep-analysis route (the per-page element
tallies and score aggregation of the success branch are not needed by
any claim and are not modelled beyond the extracted link list). -/
structure DeepBody where
  base_url : String
  url : String
  status : String
  total_internal_links : Nat
  internal_links : List RawLink
deriving Repr, DecidableEq, Inhabited

/-- Deep-analysis route result: an error response with its HTTP status
code (400 or 500), or a 200 body. -/
inductive DeepResp where
  | err (code : Nat) (msg : String)
  | completed (body : DeepBody)
deriving Repr, DecidableEq, Inhabited

/-- The deep-analysis POST handler: validate the URL field, parse it
(hard 400 on failure), fetch the main page once (a non-2xx status is a
400 error response, a rejection reaches the outer catch as a 500), then
extract internal links by string prefix. -/
def deepAnalysisPost (env : Env) (body : Option String) : DeepResp :=
  match body with
  | none => .err 400 "URL is required"
  | some url =>
    if strIsEmpty url then .err 400 "URL is required"
    else
      match parseAbsUrl url with
      | none => .err 400 "Invalid URL format"
      | some target =>
        match env.net target.toHref 0 with
        | .netError m => .err 500 ("Analysis failed: " ++ m)
        | .response s html =>
          if !isOk s then
            .err 400 ("Failed to fetch main page: " ++ toString s)
          else
            match env.dom html with
            | none => .err 500 "Analysis failed: parse error"
            | some els =>
              let internalLinks := deepExtract target els
              .completed
                { base_url := target.scheme ++ "://" ++ target.host
                  url := target.toHref
                  status := "completed"
                  total_internal_links := internalLinks.length
                  internal_links := internalLinks }

/-- Increment the histogram count of one classification, preserving
first-occurrence key order. -/
def bumpType (acc : List (String × Nat)) (t : String) : List (String × Nat) :=
  if acc.any (fun p => p.1 = t) then
    acc.map (fun p => if p.1 = t then (p.1, p.2 + 1) else p)
  else acc ++ [(t, 1)]

/-- The `form_types_breakdown` histogram. -/
def breakdownOf (forms : List FormOut) : List (String × Nat) :=
  forms.foldl (fun acc f => bumpType acc f.form_classification) []

/-- The sub-page crawl loop of the form-validation route.  For each
candidate in order: if it was already processed or the page budget is
reached the loop stops (the source `break`s); otherwise the page is
fetched with a reduced retry budget of 2, its forms are collected on
success, and the page counts against the budget whether or not its fetch
succeeded.  Returns (pages crawled, pages succeeded, collected forms). -/
def crawlSubpages (env : Env) (maxPages : Nat) :
    List String → Nat → Nat → List String → List FormOut →
    Nat × Nat × List FormOut
  | [], crawled, succ, _, acc => (crawled, succ, acc)
  | link :: rest, crawled, succ, processed, acc =>
    if processed.contains link || maxPages ≤ crawled then (crawled, succ, acc)
    else
      match fetchWithStrategies (env.net link) 2 with
      | .ok (html, _) =>
        crawlSubpages env maxPages rest (crawled + 1) (succ + 1)
          (processed ++ [link]) (acc ++ analyzeForms (env.formsOf html) link)
      | .error _ =>
        crawlSubpages env maxPages rest (crawled + 1) succ
          (processed ++ [link]) acc

/-- Response body of the form-validation route. -/
structure FormBody where
  url : String
  status : String
  total_pages_crawled : Nat
  successful_pages : Option Nat
  forms_found : Nat
  forms_with_multiple_inputs : Nat
  detailed_forms : List FormOut
  form_types_breakdown : List (String × Nat)
  method : String
  note : Option String
  error : Option String
deriving Repr, DecidableEq, Inhabited

/-- Form-validation route result: a hard 400 client error, or a 200 body. -/
inductive FormResp where
  | err400 (msg : String)
  | ok200 (body : FormBody)
deriving Repr, DecidableEq, Inhabited

/-- The form-validation POST handler: validate, normalize, fetch the seed
with the full strategy matrix; on success crawl up to `maxPages - 1`
further candidates and report multi-input forms; on total fetch failure
fall back to the form estimator, and on an internal throw (an
unparseable target inside the estimator) produce the `partial_success`
placeholder. -/
def formValidationPost (env : Env) (body : Option String) : FormResp :=
  match body with
  | none => .err400 "URL is required"
  | some url =>
    if strIsEmpty url then .err400 "URL is required"
    else
      let targetUrl := normalizeUrl url
      let maxPages := 10
      match fetchWithStrategies (env.net targetUrl) 3 with
      | .ok (mainHtml, _) =>
        let mainForms := analyzeForms (env.formsOf mainHtml) targetUrl
        let internalLinks := extractLinksFromHtml targetUrl (env.dom mainHtml)
          ((env.rxMatches mainHtml).map Prod.fst)
        let (crawled, succ, allForms) :=
          crawlSubpages env maxPages (internalLinks.take (maxPages - 1)) 1 1
            [targetUrl] mainForms
        let multi := allForms.filter (fun f => f.input_count ≥ 2)
        .ok200
          { url := targetUrl
            status := "success"
            total_pages_crawled := crawled
            successful_pages := some succ
            forms_found := allForms.length
            forms_with_multiple_inputs := multi.length
            detailed_forms := multi
            form_types_breakdown := breakdownOf multi
            method := "enhanced_crawling"
            note := none
            error := none }
      | .error _ =>
        match generateFormEstimates targetUrl env.rand with
        | some est =>
          .ok200
            { url := targetUrl
              status := "success"
              total_pages_crawled := est.total_pages_crawled
              successful_pages := none
              forms_found := est.forms_found
              forms_with_multiple_inputs := est.forms_with_multiple_inputs
              detailed_forms := est.detailed_forms
              form_types_breakdown := est.form_types_breakdown
              method := "intelligent_estimation"
              note := some "Website blocked direct access. Showing realistic estimates based on domain analysis."
              error := none }
        | none =>
          .ok200
            { url := env.reqUrl
              status := "partial_success"
              total_pages_crawled := 1
              successful_pages := none
              forms_found := 2
              forms_with_multiple_inputs := 1
              detailed_forms :=
                [⟨env.reqUrl, 0, 3, ["text", "email", "submit"], "POST",
                  "/contact", "Contact Form", true, 75⟩]
              form_types_breakdown := [("Contact Form", 1)]
              method := "error_fallback"
              note := some "Analysis partially completed."
              error := some "Form validation failed: Invalid URL" }

/-! ## Helper notions used by the verification -/

/-- HTTP status code of a quick-links route result. -/
def QuickResp.statusCode : QuickResp → Nat
  | .err400 _ => 400
  | .ok200 _ => 200

/-- HTTP status code of a full-analysis route result. -/
def FullResp.statusCode : FullResp → Nat
  | .err c _ => c
  | .ok200 _ => 200

/-- HTTP status code of a deep-analysis route result. -/
def DeepResp.statusCode : DeepResp → Nat
  | .err c _ => c
  | .completed _ => 200

/-- HTTP status code of a form-validation route result. -/
def FormResp.statusCode : FormResp → Nat
  | .err400 _ => 400
  | .ok200 _ => 200

/-- The `method` field of a quick-links 200 body, when present. -/
def QuickResp.methodOf : QuickResp → Option String
  | .err400 _ => none
  | .ok200 b => some b.method

/-- The `status` field of a quick-links 200 body, when present. -/
def QuickResp.statusOf : QuickResp → Option String
  | .err400 _ => none
  | .ok200 b => some b.status

/-- The `method` field of a form-validation 200 body, when present. -/
def FormResp.methodOf : FormResp → Option String
  | .err400 _ => none
  | .ok200 b => some b.method

/-- The `status` field of a form-validation 200 body, when present. -/
def FormResp.statusOf : FormResp → Option String
  | .err400 _ => none
  | .ok200 b => some b.status

/-- A concrete environment whose transport always fails with a network
error (a host that blocks every request). -/
def failEnv : Env :=
  { net := fun _ _ => .netError "fetch failed"
    dom := fun _ => none
    rxMatches := fun _ => []
    formsOf := fun _ => []
    rand := fun _ => 0
    reqUrl := "req" }

/-- Anchor elements of a concrete seed page whose second link (`/`)
resolves back to the seed URL itself. -/
def crawlSeedEls : List AnchorEl :=
  [⟨"/p1", "", ""⟩, ⟨"/", "", ""⟩, ⟨"/q1", "", ""⟩, ⟨"/q2", "", ""⟩,
   ⟨"/q3", "", ""⟩, ⟨"/q4", "", ""⟩, ⟨"/q5", "", ""⟩, ⟨"/q6", "", ""⟩,
   ⟨"/q7", "", ""⟩, ⟨"/q8", "", ""⟩]

/-- Hostname partition invariant for a pair of internal/external link
lists: every internal link's hostname equals the base hostname, every
external link's hostname differs. -/
def sidesOk (base : Url) (p : List Link × List Link) : Prop :=
  (∀ l ∈ p.1, l.url.host = base.host) ∧ (∀ l ∈ p.2, l.url.host ≠ base.host)

/-- The entries of an internal/external pair carrying a given URL. -/
def entriesFor (p : List Link × List Link) (u : Url) : List Link :=
  (p.1 ++ p.2).filter (fun l => l.url == u)

/-- A URL is recorded on the side of the pair its hostname selects. -/
def onSide (base : Url) (p : List Link × List Link) (u : Url) : Prop :=
  (u.host = base.host → u ∈ p.1.map Link.url) ∧
    (u.host ≠ base.host → u ∈ p.2.map Link.url)

/-! ## Lemmas about the extraction loops -/

theorem cheerioStep_sidesOk (tf : String → String) (base : Url)
    (acc : List Link × List Link) (e : AnchorEl) (h : sidesOk base acc) :
    sidesOk base (cheerioStep tf base acc e) := by
  obtain ⟨h1, h2⟩ := h
  unfold cheerioStep
  cases hu : anchorUrl base e with
  | none => exact ⟨h1, h2⟩
  | some u =>
    dsimp only
    by_cases hh : u.host = base.host
    · rw [if_pos hh]
      by_cases hdup : (acc.1.any (fun l => l.url = u)) = true
      · rw [if_pos hdup]
        exact ⟨h1, h2⟩
      · rw [if_neg hdup]
        refine ⟨fun l hl => ?_, h2⟩
        rcases List.mem_append.mp hl with hl | hl
        · exact h1 l hl
        · rcases List.mem_singleton.mp hl with rfl
          exact hh
    · rw [if_neg hh]
      by_cases hdup : (acc.2.any (fun l => l.url = u)) = true
      · rw [if_pos hdup]
        exact ⟨h1, h2⟩
      · rw [if_neg hdup]
        refine ⟨h1, fun l hl => ?_⟩
        rcases List.mem_append.mp hl with hl | hl
        · exact h2 l hl
        · rcases List.mem_singleton.mp hl with rfl
          exact hh

theorem cheerioLoop_sidesOk (tf : String → String) (base : Url)
    (es : List AnchorEl) (acc : List Link × List Link)
    (h : sidesOk base acc) : sidesOk base (cheerioLoop tf base es acc) := by
  induction es generalizing acc with
  | nil => exact h
  | cons e es ih => exact ih _ (cheerioStep_sidesOk tf base acc e h)

theorem patternStep_sidesOk (base : Url)
    (st : List Url × List Link × List Link) (m : String × String)
    (h : sidesOk base st.2) : sidesOk base (patternStep base st m).2 := by
  obtain ⟨h1, h2⟩ := h
  unfold patternStep
  split
  · exact ⟨h1, h2⟩
  · cases hu : resolveUrl base m.1 with
    | none => exact ⟨h1, h2⟩
    | some u =>
      dsimp only
      by_cases hfound : (st.1.contains u) = true
      · rw [if_pos hfound]
        exact ⟨h1, h2⟩
      · rw [if_neg hfound]
        by_cases hh : u.host = base.host
        · rw [if_pos hh]
          refine ⟨fun l hl => ?_, h2⟩
          rcases List.mem_append.mp hl with hl | hl
          · exact h1 l hl
          · rcases List.mem_singleton.mp hl with rfl
            exact hh
        · rw [if_neg hh]
          refine ⟨h1, fun l hl => ?_⟩
          rcases List.mem_append.mp hl with hl | hl
          · exact h2 l hl
          · rcases List.mem_singleton.mp hl with rfl
            exact hh

theorem patternLoop_sidesOk (base : Url) (ms : List (String × String))
    (st : List Url × List Link × List Link) (h : sidesOk base st.2) :
    sidesOk base (patternLoop base ms st).2 := by
  induction ms generalizing st with
  | nil => exact h
  | cons m ms ih => exact ih _ (patternStep_sidesOk base st m h)

/-- A pair satisfying the hostname invariant is a partition: the lists
are disjoint and membership in the internal list is equivalent to
hostname equality. -/
theorem sidesOk_partition (base : Url) (r : List Link × List Link)
    (h : sidesOk base r) :
    (∀ l, l ∈ r.1 → l ∈ r.2 → False) ∧
      (∀ l, l ∈ r.1 ∨ l ∈ r.2 → (l ∈ r.1 ↔ l.url.host = base.host)) := by
  obtain ⟨h1, h2⟩ := h
  refine ⟨fun l hl1 hl2 => h2 l hl2 (h1 l hl1), fun l hl => ?_⟩
  constructor
  · exact fun hm => h1 l hm
  · intro hh
    rcases hl with hl | hl
    · exact hl
    · exact absurd hh (h2 l hl)

theorem cheerioStep_append (tf : String → String) (base : Url)
    (acc : List Link × List Link) (e : AnchorEl) :
    ∃ a b, cheerioStep tf base acc e = (acc.1 ++ a, acc.2 ++ b) := by
  unfold cheerioStep
  cases anchorUrl base e with
  | none => exact ⟨[], [], by simp⟩
  | some u =>
    dsimp only
    by_cases hh : u.host = base.host
    · rw [if_pos hh]
      by_cases hdup : (acc.1.any (fun l => l.url = u)) = true
      · rw [if_pos hdup]
        exact ⟨[], [], by simp⟩
      · rw [if_neg hdup]
        exact ⟨[⟨u, tf e.text, e.title⟩], [], by simp⟩
    · rw [if_neg hh]
      by_cases hdup : (acc.2.any (fun l => l.url = u)) = true
      · rw [if_pos hdup]
        exact ⟨[], [], by simp⟩
      · rw [if_neg hdup]
        exact ⟨[], [⟨u, tf e.text, e.title⟩], by simp⟩

theorem cheerioLoop_append_form (tf : String → String) (base : Url)
    (es : List AnchorEl) (acc : List Link × List Link) :
    ∃ a b, cheerioLoop tf base es acc = (acc.1 ++ a, acc.2 ++ b) := by
  induction es generalizing acc with
  | nil => exact ⟨[], [], by simp [cheerioLoop]⟩
  | cons e es ih =>
    obtain ⟨a, b, hab⟩ := cheerioStep_append tf base acc e
    obtain ⟨c, d, hcd⟩ := ih (cheerioStep tf base acc e)
    refine ⟨a ++ c, b ++ d, ?_⟩
    rw [cheerioLoop, hcd, hab]
    simp

theorem onSide_mono (tf : String → String) (base : Url) (es : List AnchorEl)
    (acc : List Link × List Link) (u : Url) (h : onSide base acc u) :
    onSide base (cheerioLoop tf base es acc) u := by
  obtain ⟨a, b, hab⟩ := cheerioLoop_append_form tf base es acc
  rw [hab]
  obtain ⟨h1, h2⟩ := h
  constructor
  · intro hh
    simp only [List.map_append, List.mem_append]
    exact Or.inl (h1 hh)
  · intro hh
    simp only [List.map_append, List.mem_append]
    exact Or.inl (h2 hh)

theorem any_url_of_mem_map (ls : List Link) (u : Url)
    (h : u ∈ ls.map Link.url) : (ls.any (fun l => l.url = u)) = true := by
  simp only [List.any_eq_true, decide_eq_true_eq]
  simp only [List.mem_map] at h
  obtain ⟨l, hl, hu⟩ := h
  exact ⟨l, hl, hu⟩

theorem mem_map_of_any_url (ls : List Link) (u : Url)
    (h : (ls.any (fun l => l.url = u)) = true) : u ∈ ls.map Link.url := by
  simp only [List.any_eq_true, decide_eq_true_eq] at h
  simp only [List.mem_map]
  obtain ⟨l, hl, hu⟩ := h
  exact ⟨l, hl, hu⟩

theorem cheerioStep_onSide (tf : String → String) (base : Url)
    (acc : List Link × List Link) (e : AnchorEl) (u : Url)
    (hres : anchorUrl base e = some u) :
    onSide base (cheerioStep tf base acc e) u := by
  unfold cheerioStep
  rw [hres]
  dsimp only
  by_cases hh : u.host = base.host
  · rw [if_pos hh]
    by_cases hdup : (acc.1.any (fun l => l.url = u)) = true
    · rw [if_pos hdup]
      exact ⟨fun _ => mem_map_of_any_url _ _ hdup, fun hc => absurd hh hc⟩
    · rw [if_neg hdup]
      refine ⟨fun _ => ?_, fun hc => absurd hh hc⟩
      simp
  · rw [if_neg hh]
    by_cases hdup : (acc.2.any (fun l => l.url = u)) = true
    · rw [if_pos hdup]
      exact ⟨fun hc => absurd hc hh, fun _ => mem_map_of_any_url _ _ hdup⟩
    · rw [if_neg hdup]
      refine ⟨fun hc => absurd hc hh, fun _ => ?_⟩
      simp

theorem cheerioLoop_covers (tf : String → String) (base : Url)
    (es : List AnchorEl) (acc : List Link × List Link) :
    ∀ e ∈ es, ∀ u, anchorUrl base e = some u →
      onSide base (cheerioLoop tf base es acc) u := by
  induction es generalizing acc with
  | nil => intro e he; cases he
  | cons e0 es ih =>
    intro e he u hres
    rcases List.mem_cons.mp he with rfl | he
    · rw [cheerioLoop]
      exact onSide_mono tf base es _ u (cheerioStep_onSide tf base acc e u hres)
    · rw [cheerioLoop]
      exact ih _ e he u hres

theorem cheerioStep_fixed (tf : String → String) (base : Url)
    (acc : List Link × List Link) (e : AnchorEl)
    (h : ∀ u, anchorUrl base e = some u → onSide base acc u) :
    cheerioStep tf base acc e = acc := by
  unfold cheerioStep
  cases hres : anchorUrl base e with
  | none => rfl
  | some u =>
    obtain ⟨h1, h2⟩ := h u hres
    dsimp only
    by_cases hh : u.host = base.host
    · rw [if_pos hh, if_pos (any_url_of_mem_map _ _ (h1 hh))]
    · rw [if_neg hh, if_pos (any_url_of_mem_map _ _ (h2 hh))]

theorem cheerioLoop_fixed (tf : String → String) (base : Url)
    (es : List AnchorEl) (acc : List Link × List Link)
    (h : ∀ e ∈ es, ∀ u, anchorUrl base e = some u → onSide base acc u) :
    cheerioLoop tf base es acc = acc := by
  induction es with
  | nil => rfl
  | cons e es ih =>
    rw [cheerioLoop, cheerioStep_fixed tf base acc e (h e (List.mem_cons_self e es)),
      ih (fun e' he' => h e' (List.mem_cons_of_mem e he'))]

theorem cheerioLoop_split (tf : String → String) (base : Url)
    (as bs : List AnchorEl) (acc : List Link × List Link) :
    cheerioLoop tf base (as ++ bs) acc =
      cheerioLoop tf base bs (cheerioLoop tf base as acc) := by
  induction as generalizing acc with
  | nil => rfl
  | cons a as ih =>
    rw [List.cons_append, cheerioLoop, cheerioLoop, ih]

theorem entries_nil_any_false (acc : List Link × List Link) (u : Url)
    (h : entriesFor acc u = []) :
    (acc.1.any (fun l => l.url = u)) = false ∧
      (acc.2.any (fun l => l.url = u)) = false := by
  simp only [entriesFor, List.filter_append, List.append_eq_nil] at h
  obtain ⟨h1, h2⟩ := h
  rw [List.filter_eq_nil_iff] at h1 h2
  constructor
  · rw [List.any_eq_false]
    intro l hl
    have := h1 l hl
    simpa using this
  · rw [List.any_eq_false]
    intro l hl
    have := h2 l hl
    simpa using this

theorem entries_single_mem (acc : List Link × List Link) (u : Url) (l0 : Link)
    (h : entriesFor acc u = [l0]) :
    (l0 ∈ acc.1 ∨ l0 ∈ acc.2) ∧ l0.url = u := by
  have hmem : l0 ∈ entriesFor acc u := by
    rw [h]
    exact List.mem_singleton_self l0
  simp only [entriesFor, List.mem_filter, List.mem_append] at hmem
  obtain ⟨hm, hp⟩ := hmem
  exact ⟨hm, by simpa using hp⟩

theorem entriesFor_append_left (acc : List Link × List Link) (x : Link)
    (u : Url) (hx : x.url ≠ u) :
    entriesFor (acc.1 ++ [x], acc.2) u = entriesFor acc u := by
  simp only [entriesFor, List.filter_append]
  have : [x].filter (fun l => l.url == u) = [] := by
    simp [hx]
  rw [this]
  simp

theorem entriesFor_append_right (acc : List Link × List Link) (x : Link)
    (u : Url) (hx : x.url ≠ u) :
    entriesFor (acc.1, acc.2 ++ [x]) u = entriesFor acc u := by
  simp only [entriesFor, List.filter_append]
  have : [x].filter (fun l => l.url == u) = [] := by
    simp [hx]
  rw [this]
  simp

theorem cheerioStep_entries_stable (tf : String → String) (base : Url)
    (acc : List Link × List Link) (e : AnchorEl) (u : Url) (l0 : Link)
    (hS : sidesOk base acc) (hE : entriesFor acc u = [l0]) :
    entriesFor (cheerioStep tf base acc e) u = [l0] := by
  unfold cheerioStep
  cases hres : anchorUrl base e with
  | none => exact hE
  | some u' =>
    dsimp only
    obtain ⟨hmem, hurl⟩ := entries_single_mem acc u l0 hE
    by_cases hu' : u' = u
    · subst hu'
      by_cases hh : u'.host = base.host
      · rw [if_pos hh]
        have hl0 : l0 ∈ acc.1 := by
          rcases hmem with hm | hm
          · exact hm
          · exact absurd (hurl ▸ hh) (hS.2 l0 hm)
        rw [if_pos]
        · exact hE
        · rw [List.any_eq_true]
          exact ⟨l0, hl0, by simp [hurl]⟩
      · rw [if_neg hh]
        have hl0 : l0 ∈ acc.2 := by
          rcases hmem with hm | hm
          · exact absurd (hurl ▸ hS.1 l0 hm) hh
          · exact hm
        rw [if_pos]
        · exact hE
        · rw [List.any_eq_true]
          exact ⟨l0, hl0, by simp [hurl]⟩
    · by_cases hh : u'.host = base.host
      · rw [if_pos hh]
        by_cases hdup : (acc.1.any (fun l => l.url = u')) = true
        · rw [if_pos hdup]
          exact hE
        · rw [if_neg hdup]
          rw [entriesFor_append_left acc _ u (by simpa using hu')]
          exact hE
      · rw [if_neg hh]
        by_cases hdup : (acc.2.any (fun l => l.url = u')) = true
        · rw [if_pos hdup]
          exact hE
        · rw [if_neg hdup]
          rw [entriesFor_append_right acc _ u (by simpa using hu')]
          exact hE

theorem cheerioLoop_entries_stable (tf : String → String) (base : Url)
    (es : List AnchorEl) (acc : List Link × List Link) (u : Url) (l0 : Link)
    (hS : sidesOk base acc) (hE : entriesFor acc u = [l0]) :
    entriesFor (cheerioLoop tf base es acc) u = [l0] := by
  induction es generalizing acc with
  | nil => exact hE
  | cons e es ih =>
    rw [cheerioLoop]
    exact ih _ (cheerioStep_sidesOk tf base acc e hS)
      (cheerioStep_entries_stable tf base acc e u l0 hS hE)

theorem cheerioLoop_entries_first (tf : String → String) (base : Url)
    (es : List AnchorEl) (acc : List Link × List Link) (u : Url)
    (e0 : AnchorEl) (hS : sidesOk base acc) (hE : entriesFor acc u = [])
    (hfind : es.find? (fun e => decide (anchorUrl base e = some u)) = some e0) :
    entriesFor (cheerioLoop tf base es acc) u = [⟨u, tf e0.text, e0.title⟩] := by
  induction es generalizing acc with
  | nil => cases hfind
  | cons e es ih =>
    obtain ⟨ha1, ha2⟩ := entries_nil_any_false acc u hE
    by_cases htest : anchorUrl base e = some u
    · rw [List.find?_cons_of_pos _ (by simpa using htest)] at hfind
      rcases Option.some_inj.mp hfind with rfl
      rw [cheerioLoop]
      have hstep : cheerioStep tf base acc e =
          (if u.host = base.host then (acc.1 ++ [⟨u, tf e.text, e.title⟩], acc.2)
           else (acc.1, acc.2 ++ [⟨u, tf e.text, e.title⟩])) := by
        unfold cheerioStep
        rw [htest]
        dsimp only
        by_cases hh : u.host = base.host
        · rw [if_pos hh, if_neg (by simp [ha1]), if_pos hh]
        · rw [if_neg hh, if_neg (by simp [ha2]), if_neg hh]
      by_cases hh : u.host = base.host
      · rw [hstep, if_pos hh]
        apply cheerioLoop_entries_stable
        · refine ⟨fun l hl => ?_, hS.2⟩
          rcases List.mem_append.mp hl with hl | hl
          · exact hS.1 l hl
          · rcases List.mem_singleton.mp hl with rfl
            exact hh
        · simp only [entriesFor, List.filter_append] at hE ⊢
          simp only [List.append_eq_nil] at hE
          rw [hE.1, hE.2]
          simp
      · rw [hstep, if_neg hh]
        apply cheerioLoop_entries_stable
        · refine ⟨hS.1, fun l hl => ?_⟩
          rcases List.mem_append.mp hl with hl | hl
          · exact hS.2 l hl
          · rcases List.mem_singleton.mp hl with rfl
            exact hh
        · simp only [entriesFor, List.filter_append] at hE ⊢
          simp only [List.append_eq_nil] at hE
          rw [hE.1, hE.2]
          simp
    · rw [List.find?_cons_of_neg _ (by simpa using htest)] at hfind
      rw [cheerioLoop]
      have hSstep := cheerioStep_sidesOk tf base acc e hS
      have hEstep : entriesFor (cheerioStep tf base acc e) u = [] := by
        unfold cheerioStep
        cases hres : anchorUrl base e with
        | none => exact hE
        | some u' =>
          dsimp only
          have hu' : u' ≠ u := fun hc => htest (hc ▸ hres)
          by_cases hh : u'.host = base.host
          · rw [if_pos hh]
            by_cases hdup : (acc.1.any (fun l => l.url = u')) = true
            · rw [if_pos hdup]
              exact hE
            · rw [if_neg hdup]
              rw [entriesFor_append_left acc _ u (by simpa using hu')]
              exact hE
          · rw [if_neg hh]
            by_cases hdup : (acc.2.any (fun l => l.url = u')) = true
            · rw [if_pos hdup]
              exact hE
            · rw [if_neg hdup]
              rw [entriesFor_append_right acc _ u (by simpa using hu')]
              exact hE
      exact ih _ hSstep hEstep hfind

/-! ## Lemmas about the scoring engine -/

theorem altDeduction_nonneg (p : Page) (w : ℚ) (hw : 0 ≤ w) :
    0 ≤ altDeduction p w := by
  simp only [altDeduction]
  split_ifs with h1 h2
  · have : (0 : ℚ) ≤ 100 - ((p.images.length : ℚ) - imagesWithoutAlt p) /
        (p.images.length : ℚ) * 100 := by linarith
    positivity
  · exact le_refl 0
  · exact le_refl 0

theorem linkNameDeduction_nonneg (p : Page) : 0 ≤ linkNameDeduction p := by
  simp only [linkNameDeduction]
  split_ifs with h1 h2
  · linarith
  · exact le_refl 0
  · exact le_refl 0

theorem inputLabelDeduction_nonneg (p : Page) : 0 ≤ inputLabelDeduction p := by
  simp only [inputLabelDeduction]
  split_ifs with h1 h2
  · linarith
  · exact le_refl 0
  · exact le_refl 0

theorem h1Deduction_nonneg (p : Page) : 0 ≤ h1Deduction p := by
  simp only [h1Deduction]
  split_ifs <;> norm_num

theorem titleDeduction_nonneg (p : Page) : 0 ≤ titleDeduction p := by
  simp only [titleDeduction]
  split_ifs <;> norm_num

theorem descriptionDeduction_nonneg (p : Page) : 0 ≤ descriptionDeduction p := by
  simp only [descriptionDeduction]
  split_ifs <;> norm_num

theorem seoH1Deduction_nonneg (p : Page) : 0 ≤ seoH1Deduction p := by
  simp only [seoH1Deduction]
  split_ifs <;> norm_num

theorem round_sub_le_100 (d : ℚ) (hd : 0 ≤ d) : round ((100 : ℚ) - d) ≤ 100 := by
  rw [round_eq]
  calc ⌊(100 : ℚ) - d + 1 / 2⌋ ≤ ⌊(201 / 2 : ℚ)⌋ := by
        apply Int.floor_le_floor
        linarith
    _ = 100 := by
        rw [Int.floor_eq_iff]
        constructor
        · push_cast
          norm_num
        · push_cast
          norm_num

theorem altDeduction_zero (p : Page) (w : ℚ) (h : imagesWithoutAlt p = 0) :
    altDeduction p w = 0 := by
  simp only [altDeduction, h]
  split_ifs with h1 h2
  · exfalso
    have hn : (0 : ℚ) < (p.images.length : ℚ) := by exact_mod_cast h1
    have : ((p.images.length : ℚ) - (0 : ℕ)) / (p.images.length : ℚ) * 100 = 100 := by
      field_simp
    rw [this] at h2
    exact absurd h2 (lt_irrefl _)
  · rfl
  · rfl

/-! ## Claim theorems -/

/-- Processing one failing request continues the loop on the remaining
strategy/attempt pairs with some recorded last error. -/
theorem runFetch_step_fail (net : Nat → NetResult) (p : Nat × String)
    (rest : List (Nat × String)) (k : Nat) (le : Option String)
    (h : (net k).isOkResp = false) :
    ∃ e, runFetch net (p :: rest) k le = runFetch net rest (k + 1) (some e) := by
  cases hnet : net k with
  | response s html =>
    have hfail : isOk s = false := by
      simpa [NetResult.isOkResp, hnet] using h
    refine ⟨"HTTP " ++ toString s, ?_⟩
    simp only [runFetch, hnet, hfail, Bool.false_eq_true, if_false, ite_self]
  | netError m =>
    exact ⟨m, by simp only [runFetch, hnet]⟩

/-- A 200 response at request `k` returns immediately with `k + 1`
requests issued. -/
theorem runFetch_step_ok (net : Nat → NetResult) (p : Nat × String)
    (rest : List (Nat × String)) (k : Nat) (le : Option String)
    (html : String) (h : net k = .response 200 html) :
    runFetch net (p :: rest) k le = .ok (html, k + 1) := by
  simp only [runFetch, h]
  rfl

theorem crawlSubpages_count (env : Env) (maxPages : Nat)
    (cands : List String) (crawled succ : Nat) (processed : List String)
    (acc : List FormOut) (hnd : cands.Nodup)
    (hdis : ∀ c ∈ cands, c ∉ processed)
    (hbound : crawled + cands.length ≤ maxPages) :
    (crawlSubpages env maxPages cands crawled succ processed acc).1 =
      crawled + cands.length := by
  induction cands generalizing crawled succ processed acc with
  | nil => simp [crawlSubpages]
  | cons link rest ih =>
    have h1 : link ∉ processed := hdis link (List.mem_cons_self _ _)
    have h2 : ¬maxPages ≤ crawled := by
      simp only [List.length_cons] at hbound
      omega
    rw [crawlSubpages, if_neg (by simp [h1, h2])]
    have hnd' : rest.Nodup := hnd.of_cons
    have hne : link ∉ rest := (List.nodup_cons.mp hnd).1
    have hdis' : ∀ c ∈ rest, c ∉ processed ++ [link] := by
      intro c hc
      simp only [List.mem_append, List.mem_singleton]
      rintro (hcp | rfl)
      · exact hdis c (List.mem_cons_of_mem _ hc) hcp
      · exact hne hc
    have hbound' : crawled + 1 + rest.length ≤ maxPages := by
      simp only [List.length_cons] at hbound
      omega
    cases hf : fetchWithStrategies (env.net link) 2 with
    | ok p =>
      cases p with
      | mk html n =>
        dsimp only
        rw [ih (crawled + 1) (succ + 1) (processed ++ [link]) _ hnd' hdis' hbound']
        simp only [List.length_cons]
        omega
    | error e =>
      dsimp only
      rw [ih (crawled + 1) succ (processed ++ [link]) _ hnd' hdis' hbound']
      simp only [List.length_cons]
      omega

/-- C3 counterexample: a seed page whose candidate list holds 10
distinct same-origin links, one of which (position 2) is the seed URL
itself.  The crawl loop breaks at the already-visited candidate instead
of skipping it, ending with pages_crawled = 2 rather than max_pages = 10. -/
theorem c3_counterexample :
    (extractLinksFromHtml "https://x.com/" (some crawlSeedEls) []).length = 10 ∧
    (extractLinksFromHtml "https://x.com/" (some crawlSeedEls) []).Nodup ∧
    (∀ c ∈ extractLinksFromHtml "https://x.com/" (some crawlSeedEls) [],
      urlHostname c = some "x.com") ∧
    (crawlSubpages failEnv 10
      ((extractLinksFromHtml "https://x.com/" (some crawlSeedEls) []).take 9)
      1 1 ["https://x.com/"] []).1 = 2 ∧
    (2 : Nat) ≠ 10 := by
  refine ⟨by decide, by decide, by decide, by decide, by decide⟩

/-- C3 (amended): the crawl loop stops at the first already-visited
candidate (the source breaks instead of skipping); when the first
max_pages − 1 = 9 extracted candidates are distinct and none of them is
the already-visited seed URL, and at least 9 candidates exist,
pages_crawled reaches exactly max_pages = 10 (the seed page plus 9
sub-pages, each counted whether or not its fetch succeeds). -/
theorem c3_amended_crawl_budget (env : Env) (seed : String)
    (cands : List String) (forms : List FormOut) (hnd : cands.Nodup)
    (hseed : seed ∉ cands.take 9) (hlen : 9 ≤ cands.length) :
    (crawlSubpages env 10 (cands.take 9) 1 1 [seed] forms).1 = 10 := by
  have h1 : (cands.take 9).Nodup := hnd.sublist (List.take_sublist 9 cands)
  have h2 : ∀ c ∈ cands.take 9, c ∉ [seed] := by
    intro c hc
    simp only [List.mem_singleton]
    intro hc'
    exact hseed (hc' ▸ hc)
  have h3 : 1 + (cands.take 9).length ≤ 10 := by
    rw [List.length_take]
    omega
  rw [crawlSubpages_count env 10 (cands.take 9) 1 1 [seed] forms h1 h2 h3]
  rw [List.length_take]
  omega

/-- C3 witness: nine fresh same-origin candidates after the seed give
pages_crawled = 10. -/
theorem c3_witness :
    (["https://x.com/a1", "https://x.com/a2", "https://x.com/a3",
      "https://x.com/a4", "https://x.com/a5", "https://x.com/a6",
      "https://x.com/a7", "https://x.com/a8", "https://x.com/a9"] :
        List String).Nodup ∧
    (crawlSubpages failEnv 10
      (["https://x.com/a1", "https://x.com/a2", "https://x.com/a3",
        "https://x.com/a4", "https://x.com/a5", "https://x.com/a6",
        "https://x.com/a7", "https://x.com/a8",
        "https://x.com/a9"].take 9) 1 1 ["https://x.com/"] []).1 = 10 :=
  ⟨by decide,
    c3_amended_crawl_budget failEnv "https://x.com/"
      ["https://x.com/a1", "https://x.com/a2", "https://x.com/a3",
       "https://x.com/a4", "https://x.com/a5", "https://x.com/a6",
       "https://x.com/a7", "https://x.com/a8", "https://x.com/a9"] []
      (by decide) (by decide) (by decide)⟩

/-- C2 counterexample: the deep-analysis route classifies links by
string prefix, not by hostname: with base URL `https://x.com` the anchor
`https://x.com.evil.com/` is placed in the internal list although its
hostname `x.com.evil.com` differs from the base hostname `x.com`, so the
claimed hostname-iff-internal property fails for that operation. -/
theorem c2_counterexample :
    deepExtract ⟨"https", "x.com", "/"⟩ [⟨"https://x.com.evil.com/", "Evil", ""⟩] =
      [⟨"https://x.com.evil.com/", "Evil", ""⟩] ∧
    urlHostname "https://x.com.evil.com/" = some "x.com.evil.com" ∧
    urlHostname (Url.toHref ⟨"https", "x.com", "/"⟩) = some "x.com" ∧
    "x.com.evil.com" ≠ "x.com" := by
  refine ⟨by decide, by decide, by decide, by decide⟩

/-- C2 (amended): for the hostname-classifying extractors — the cheerio
tier shared by the quick-links and full-analysis routes, and the pattern
tier `extractLinksFromText` — the internal and external lists are
disjoint and a produced link is internal iff its hostname equals the
base hostname.  The deep-analysis route instead classifies by URL-string
prefix and does not satisfy the hostname equivalence (see the
counterexample). -/
theorem c2_amended_hostname_partition (tf : String → String) (base : Url)
    (es : List AnchorEl) (baseUrl : String) (ms : List (String × String))
    (hb : parseAbsUrl baseUrl = some base) :
    ((∀ l, l ∈ (extractCheerio tf base es).1 →
        l ∈ (extractCheerio tf base es).2 → False) ∧
      (∀ l, l ∈ (extractCheerio tf base es).1 ∨
          l ∈ (extractCheerio tf base es).2 →
        (l ∈ (extractCheerio tf base es).1 ↔ l.url.host = base.host))) ∧
    ((∀ l, l ∈ (extractLinksFromText baseUrl ms).1 →
        l ∈ (extractLinksFromText baseUrl ms).2 → False) ∧
      (∀ l, l ∈ (extractLinksFromText baseUrl ms).1 ∨
          l ∈ (extractLinksFromText baseUrl ms).2 →
        (l ∈ (extractLinksFromText baseUrl ms).1 ↔
          l.url.host = base.host))) := by
  constructor
  · exact sidesOk_partition base _
      (cheerioLoop_sidesOk tf base es ([], []) (by simp [sidesOk]))
  · have : extractLinksFromText baseUrl ms = (patternLoop base ms ([], [], [])).2 := by
      simp only [extractLinksFromText, hb]
    rw [this]
    exact sidesOk_partition base _
      (patternLoop_sidesOk base ms ([], [], []) (by simp [sidesOk]))

/-- C2 witness: on the spec's scenario page the produced internal link
`https://x.com/about` is in the internal list and the amended theorem
yields its hostname equation. -/
theorem c2_witness :
    parseAbsUrl "https://x.com/" = some ⟨"https", "x.com", "/"⟩ ∧
    (⟨⟨"https", "x.com", "/about"⟩, "About", ""⟩ : Link) ∈
      (extractCheerio quickText ⟨"https", "x.com", "/"⟩
        [⟨"/about", "About", ""⟩, ⟨"https://other.com", "Other", ""⟩]).1 ∧
    (⟨⟨"https", "x.com", "/about"⟩, "About", ""⟩ : Link).url.host = "x.com" :=
  ⟨by decide, by decide,
    ((c2_amended_hostname_partition quickText ⟨"https", "x.com", "/"⟩
      [⟨"/about", "About", ""⟩, ⟨"https://other.com", "Other", ""⟩]
      "https://x.com/" [] (by decide)).1.2 _ (Or.inl (by decide))).mp (by decide)⟩

/-- C6: when some anchors of a page resolve to the same absolute URL,
extraction yields exactly one entry for that URL, carrying the
(transformed) text of the first resolving anchor; and re-running the
extraction over the duplicated element stream adds nothing. -/
theorem c6_dedup_idempotent (tf : String → String) (base : Url)
    (es : List AnchorEl) (u : Url) (e0 : AnchorEl)
    (hfind : es.find? (fun e => decide (anchorUrl base e = some u)) = some e0) :
    entriesFor (extractCheerio tf base es) u = [⟨u, tf e0.text, e0.title⟩] ∧
    extractCheerio tf base (es ++ es) = extractCheerio tf base es := by
  constructor
  · exact cheerioLoop_entries_first tf base es ([], []) u e0
      (by simp [sidesOk]) rfl hfind
  · rw [extractCheerio, extractCheerio, cheerioLoop_split]
    exact cheerioLoop_fixed tf base es _
      (fun e he u' hres => cheerioLoop_covers tf base es ([], []) e he u' hres)

/-- C6 witness: two anchors with href `/a` and texts "First"/"Second"
yield one entry with text "First", and extraction is idempotent there. -/
theorem c6_witness :
    ([⟨"/a", "First", ""⟩, ⟨"/a", "Second", ""⟩] :
        List AnchorEl).find? (fun e => decide (anchorUrl ⟨"https", "x.com", "/"⟩
          e = some ⟨"https", "x.com", "/a"⟩)) = some ⟨"/a", "First", ""⟩ ∧
    entriesFor (extractCheerio quickText ⟨"https", "x.com", "/"⟩
        [⟨"/a", "First", ""⟩, ⟨"/a", "Second", ""⟩]) ⟨"https", "x.com", "/a"⟩ =
      [⟨⟨"https", "x.com", "/a"⟩, quickText "First", ""⟩] ∧
    extractCheerio quickText ⟨"https", "x.com", "/"⟩
        ([⟨"/a", "First", ""⟩, ⟨"/a", "Second", ""⟩] ++
          [⟨"/a", "First", ""⟩, ⟨"/a", "Second", ""⟩]) =
      extractCheerio quickText ⟨"https", "x.com", "/"⟩
        [⟨"/a", "First", ""⟩, ⟨"/a", "Second", ""⟩] :=
  ⟨by decide,
    (c6_dedup_idempotent quickText ⟨"https", "x.com", "/"⟩
      [⟨"/a", "First", ""⟩, ⟨"/a", "Second", ""⟩] ⟨"https", "x.com", "/a"⟩
      ⟨"/a", "First", ""⟩ (by decide)).1,
    (c6_dedup_idempotent quickText ⟨"https", "x.com", "/"⟩
      [⟨"/a", "First", ""⟩, ⟨"/a", "Second", ""⟩] ⟨"https", "x.com", "/a"⟩
      ⟨"/a", "First", ""⟩ (by decide)).2⟩

/-- C5: the resilient fetch returns the first 2xx response immediately:
for a transport whose first request fails and whose second request (the
2nd strategy of the 1st attempt) returns HTTP 200, `fetchWithStrategies`
succeeds with that body after exactly 2 issued requests. -/
theorem c5_fetch_short_circuit (net : Nat → NetResult) (html : String)
    (h0 : (net 0).isOkResp = false) (h1 : net 1 = .response 200 html) :
    fetchWithStrategies net 3 = .ok (html, 2) := by
  have hm : attemptMatrix 3 =
      (0, "standard") :: (0, "mobile") :: (0, "crawler") ::
      (1, "standard") :: (1, "mobile") :: (1, "crawler") ::
      (2, "standard") :: (2, "mobile") :: (2, "crawler") :: [] := rfl
  rw [fetchWithStrategies, hm]
  obtain ⟨e, he⟩ := runFetch_step_fail net _ _ 0 none h0
  rw [he]
  exact runFetch_step_ok net _ _ 1 (some e) html h1

/-- C5 witness: a concrete transport failing on request 0 and answering
200 on request 1 makes exactly 2 requests. -/
theorem c5_witness :
    ((fun k => if k = 1 then NetResult.response 200 "page"
      else NetResult.netError "x") 0).isOkResp = false ∧
    fetchWithStrategies
      (fun k => if k = 1 then NetResult.response 200 "page"
        else NetResult.netError "x") 3 = .ok ("page", 2) :=
  ⟨rfl, c5_fetch_short_circuit _ "page" rfl rfl⟩

theorem runFetch_all_fail (net : Nat → NetResult)
    (l : List (Nat × String)) (k : Nat) (le : Option String)
    (h : ∀ j, (net j).isOkResp = false) :
    ∃ e, runFetch net l k le = .error e := by
  induction l generalizing k le with
  | nil => exact ⟨le.getD "All fetch strategies failed", rfl⟩
  | cons p rest ih =>
    obtain ⟨e, he⟩ := runFetch_step_fail net p rest k le (h k)
    rw [he]
    exact ih (k + 1) (some e)

theorem fetchWithStrategies_all_fail (net : Nat → NetResult) (n : Nat)
    (h : ∀ j, (net j).isOkResp = false) :
    ∃ e, fetchWithStrategies net n = .error e :=
  runFetch_all_fail net (attemptMatrix n) 0 none h

/-- C1 counterexample: on total fetch failure the full-analysis route
returns an HTTP 500 error response and the deep-analysis route an HTTP
500 error response as well — not a fallback-estimator result with method
"intelligent_estimation" — so the claim fails for two of the four
operations. -/
theorem c1_counterexample :
    fullAnalysisPost failEnv (some "https://x.com") =
      .err 500 "Analysis failed: fetch failed" ∧
    deepAnalysisPost failEnv (some "https://x.com") =
      .err 500 "Analysis failed: fetch failed" ∧
    (fullAnalysisPost failEnv (some "https://x.com")).statusCode = 500 ∧
    (500 : Nat) ≠ 200 := by
  refine ⟨by decide, by decide, by decide, by decide⟩

/-- C1 (amended): on total fetch failure (every strategy and retry
exhausted) with a parseable target URL, quick_links and form_validation
return the fallback-estimator result (`method = "intelligent_estimation"`,
HTTP 200, `status = "success"`); full_analysis instead returns an HTTP
500 error response, and deep_analysis an HTTP 400 or 500 error response. -/
theorem c1_amended_fetch_failure (env : Env)
    (hfail : ∀ u k, (env.net u k).isOkResp = false) :
    (∀ url b, strIsEmpty url = false → parseAbsUrl (normalizeUrl url) = some b →
      (quickLinksPost env (some url)).statusCode = 200 ∧
      (quickLinksPost env (some url)).methodOf = some "intelligent_estimation" ∧
      (quickLinksPost env (some url)).statusOf = some "success") ∧
    (∀ url b, strIsEmpty url = false → parseAbsUrl (normalizeUrl url) = some b →
      (formValidationPost env (some url)).statusCode = 200 ∧
      (formValidationPost env (some url)).methodOf = some "intelligent_estimation" ∧
      (formValidationPost env (some url)).statusOf = some "success") ∧
    (∀ url, strIsEmpty url = false →
      ∃ m, fullAnalysisPost env (some url) = .err 500 m) ∧
    (∀ url t, strIsEmpty url = false → parseAbsUrl url = some t →
      ∃ c m, deepAnalysisPost env (some url) = .err c m ∧
        (c = 400 ∨ c = 500)) := by
  refine ⟨?_, ?_, ?_, ?_⟩
  · intro url b hne hparse
    obtain ⟨e, he⟩ :=
      fetchWithStrategies_all_fail (env.net (normalizeUrl url)) 3 (hfail _)
    refine ⟨?_, ?_, ?_⟩ <;>
      simp only [quickLinksPost, hne, Bool.false_eq_true, if_false, he,
        generateFallbackData, hparse, QuickResp.statusCode,
        QuickResp.methodOf, QuickResp.statusOf]
  · intro url b hne hparse
    obtain ⟨e, he⟩ :=
      fetchWithStrategies_all_fail (env.net (normalizeUrl url)) 3 (hfail _)
    refine ⟨?_, ?_, ?_⟩ <;>
      simp only [formValidationPost, hne, Bool.false_eq_true, if_false, he,
        generateFormEstimates, hparse, FormResp.statusCode,
        FormResp.methodOf, FormResp.statusOf]
  · intro url hne
    cases hresp : env.net (normalizeUrl url) 0 with
    | response s html =>
      have hs : isOk s = false := by
        simpa [NetResult.isOkResp, hresp] using hfail (normalizeUrl url) 0
      refine ⟨"Analysis failed: HTTP " ++ toString s, ?_⟩
      simp only [fullAnalysisPost, hne, Bool.false_eq_true, if_false, hresp,
        hs, Bool.not_false, if_true]
    | netError m =>
      refine ⟨"Analysis failed: " ++ m, ?_⟩
      simp only [fullAnalysisPost, hne, Bool.false_eq_true, if_false, hresp]
  · intro url t hne hparse
    cases hresp : env.net t.toHref 0 with
    | response s html =>
      have hs : isOk s = false := by
        simpa [NetResult.isOkResp, hresp] using hfail t.toHref 0
      refine ⟨400, "Failed to fetch main page: " ++ toString s, ?_, Or.inl rfl⟩
      simp only [deepAnalysisPost, hne, Bool.false_eq_true, if_false, hparse,
        hresp, hs, Bool.not_false, if_true]
    | netError m =>
      refine ⟨500, "Analysis failed: " ++ m, ?_, Or.inr rfl⟩
      simp only [deepAnalysisPost, hne, Bool.false_eq_true, if_false, hparse,
        hresp]

/-- C1 witness: against an always-failing transport, the two degrading
routes produce the intelligent-estimation fallback for a concrete URL. -/
theorem c1_witness :
    ((quickLinksPost failEnv (some "https://x.com")).statusCode = 200 ∧
      (quickLinksPost failEnv (some "https://x.com")).methodOf =
        some "intelligent_estimation" ∧
      (quickLinksPost failEnv (some "https://x.com")).statusOf =
        some "success") ∧
    ((formValidationPost failEnv (some "https://x.com")).statusCode = 200 ∧
      (formValidationPost failEnv (some "https://x.com")).methodOf =
        some "intelligent_estimation" ∧
      (formValidationPost failEnv (some "https://x.com")).statusOf =
        some "success") := by
  have h := c1_amended_fetch_failure failEnv (fun u k => rfl)
  exact ⟨h.1 "https://x.com" ⟨"https", "x.com", "/"⟩ (by decide) (by decide),
    h.2.1 "https://x.com" ⟨"https", "x.com", "/"⟩ (by decide) (by decide)⟩

/-- C4 counterexample: the quick-links route does not return a hard 400
for the syntactically unparseable URL "http://": it attempts the fetch
and answers HTTP 200 with a `partial_success` error-fallback body. -/
theorem c4_counterexample :
    quickLinksPost failEnv (some "http://") = .ok200
      { internal_links := [⟨"req", "Home", "Homepage"⟩]
        external_links := [⟨"https://www.google.com", "Google", "Google Search"⟩]
        total := 2
        status := "partial_success"
        method := "error_fallback"
        note := some "Analysis partially completed."
        error := some "Analysis failed: Invalid URL" } ∧
    (quickLinksPost failEnv (some "http://")).statusCode = 200 ∧
    (200 : Nat) ≠ 400 := by
  refine ⟨by decide, by decide, by decide⟩

/-- C4 (amended): a missing (or empty) URL field yields a hard 400 with
an error message in all four operations, independently of the transport
and parsers (so no fetch influences the result).  A present but
syntactically unparseable URL yields a 400 only in deep_analysis;
quick_links normalizes it and ends in a 200 `partial_success`
error-fallback body, form_validation does the same when its fetch fails,
and full_analysis returns a 500 error response when its fetch fails. -/
theorem c4_amended_url_validation :
    (∀ env : Env, quickLinksPost env none = .err400 "URL is required" ∧
      fullAnalysisPost env none = .err 400 "URL is required" ∧
      deepAnalysisPost env none = .err 400 "URL is required" ∧
      formValidationPost env none = .err400 "URL is required") ∧
    (∀ (env : Env) url, strIsEmpty url = true →
      quickLinksPost env (some url) = .err400 "URL is required" ∧
      fullAnalysisPost env (some url) = .err 400 "URL is required" ∧
      deepAnalysisPost env (some url) = .err 400 "URL is required" ∧
      formValidationPost env (some url) = .err400 "URL is required") ∧
    (∀ (env : Env) url, strIsEmpty url = false → parseAbsUrl url = none →
      deepAnalysisPost env (some url) = .err 400 "Invalid URL format") ∧
    (∀ (env : Env) url, strIsEmpty url = false →
      parseAbsUrl (normalizeUrl url) = none →
      (quickLinksPost env (some url)).statusCode = 200 ∧
      (quickLinksPost env (some url)).statusOf = some "partial_success" ∧
      (quickLinksPost env (some url)).methodOf = some "error_fallback") ∧
    (∀ (env : Env) url,
      (∀ k, (env.net (normalizeUrl url) k).isOkResp = false) →
      strIsEmpty url = false → parseAbsUrl (normalizeUrl url) = none →
      (formValidationPost env (some url)).statusCode = 200 ∧
      (formValidationPost env (some url)).statusOf = some "partial_success" ∧
      (formValidationPost env (some url)).methodOf = some "error_fallback") ∧
    (∀ (env : Env) url, (env.net (normalizeUrl url) 0).isOkResp = false →
      strIsEmpty url = false →
      ∃ m, fullAnalysisPost env (some url) = .err 500 m) := by
  refine ⟨?_, ?_, ?_, ?_, ?_, ?_⟩
  · intro env
    exact ⟨rfl, rfl, rfl, rfl⟩
  · intro env url he
    refine ⟨?_, ?_, ?_, ?_⟩ <;>
      simp only [quickLinksPost, fullAnalysisPost, deepAnalysisPost,
        formValidationPost, he, if_true]
  · intro env url hne hparse
    simp only [deepAnalysisPost, hne, Bool.false_eq_true, if_false, hparse]
  · intro env url hne hparse
    have hq : ∀ p, quickLinksPost env (some url) = .ok200 p →
        p.status = "partial_success" ∧ p.method = "error_fallback" →
        (quickLinksPost env (some url)).statusCode = 200 ∧
        (quickLinksPost env (some url)).statusOf = some "partial_success" ∧
        (quickLinksPost env (some url)).methodOf = some "error_fallback" := by
      intro p hp ⟨h1, h2⟩
      rw [hp]
      exact ⟨rfl, by simp [QuickResp.statusOf, h1],
        by simp [QuickResp.methodOf, h2]⟩
    cases hfetch : fetchWithStrategies (env.net (normalizeUrl url)) 3 with
    | ok p =>
      cases p with
      | mk html n =>
        cases hdom : env.dom html with
        | some els =>
          apply hq
          · simp [quickLinksPost, hne, hfetch, hdom, hparse,
              quickPatternTier, extractLinksFromText, generateFallbackData]
            exact rfl
          · exact ⟨rfl, rfl⟩
        | none =>
          apply hq
          · simp [quickLinksPost, hne, hfetch, hdom, hparse,
              quickPatternTier, extractLinksFromText, generateFallbackData]
            exact rfl
          · exact ⟨rfl, rfl⟩
    | error e =>
      apply hq
      · simp [quickLinksPost, hne, hfetch, hparse, generateFallbackData]
        exact rfl
      · exact ⟨rfl, rfl⟩
  · intro env url hfail hne hparse
    obtain ⟨e, he⟩ :=
      fetchWithStrategies_all_fail (env.net (normalizeUrl url)) 3 hfail
    refine ⟨?_, ?_, ?_⟩ <;>
      simp only [formValidationPost, hne, Bool.false_eq_true, if_false, he,
        generateFormEstimates, hparse, FormResp.statusCode,
        FormResp.methodOf, FormResp.statusOf]
  · intro env url hresp hne
    cases hr : env.net (normalizeUrl url) 0 with
    | response s html =>
      have hs : isOk s = false := by
        simpa [NetResult.isOkResp, hr] using hresp
      refine ⟨"Analysis failed: HTTP " ++ toString s, ?_⟩
      simp only [fullAnalysisPost, hne, Bool.false_eq_true, if_false, hr, hs,
        Bool.not_false, if_true]
    | netError m =>
      refine ⟨"Analysis failed: " ++ m, ?_⟩
      simp only [fullAnalysisPost, hne, Bool.false_eq_true, if_false, hr]

/-- C4 witness: a missing URL gives 400 in every route, and the
unparseable URL "http://" gives the deep-analysis 400 response. -/
theorem c4_witness :
    quickLinksPost failEnv none = .err400 "URL is required" ∧
    formValidationPost failEnv none = .err400 "URL is required" ∧
    deepAnalysisPost failEnv (some "http://") = .err 400 "Invalid URL format" := by
  have h := c4_amended_url_validation
  exact ⟨(h.1 failEnv).1, (h.1 failEnv).2.2.2,
    h.2.2.1 failEnv "http://" (by decide) (by decide)⟩

/-- C7: a page with zero h1 elements, no meta description and no
viewport tag, all other SEO checks passing, scores exactly
62 = 100 - 15 - 15 - 8. -/
theorem c7_seo_score_62 (p : Page)
    (htitle : strIsEmpty (strTrim p.title) = false)
    (hlen1 : 30 ≤ strLength (strTrim p.title))
    (hlen2 : strLength (strTrim p.title) ≤ 60)
    (hdesc : strIsEmpty p.metaDescription = true)
    (hh1 : p.h1Texts = [])
    (hhier : p.h2Count = 0 → p.h3Count = 0 ∧ p.h4Count = 0)
    (halt : imagesWithoutAlt p = 0)
    (hint : seoInternalLinkCount p ≠ 0)
    (hview : p.hasViewport = false)
    (hcanon : p.hasCanonical = true)
    (hog : p.ogCount ≠ 0) (hjson : p.jsonLdCount ≠ 0) :
    calculateSEOScore p = 62 := by
  have ht : titleDeduction p = 0 := by
    simp only [titleDeduction, htitle, Bool.false_eq_true, if_false]
    rw [if_neg]
    simp only [Bool.or_eq_true, decide_eq_true_eq]
    omega
  have hd : descriptionDeduction p = 15 := by
    simp [descriptionDeduction, hdesc]
  have hh : seoH1Deduction p = 15 := by
    simp [seoH1Deduction, hh1]
  have hhi : (if (p.h2Count = 0 && (p.h3Count > 0 || p.h4Count > 0)) = true
      then (8 : ℚ) else 0) = 0 := by
    rw [if_neg]
    simp only [Bool.and_eq_true, Bool.or_eq_true, decide_eq_true_eq]
    intro ⟨a, b⟩
    rcases hhier a with ⟨c, d⟩
    omega
  have ha : altDeduction p (3 / 20) = 0 := altDeduction_zero p _ halt
  have hil : (if seoInternalLinkCount p = 0 then (10 : ℚ) else 0) = 0 := by
    rw [if_neg hint]
  have hvp : (if p.hasViewport then (0 : ℚ) else 8) = 8 := by
    rw [hview]
    simp
  have hca : (if p.hasCanonical then (0 : ℚ) else 5) = 0 := by
    rw [hcanon]
    simp
  have hogd : (if p.ogCount = 0 then (5 : ℚ) else 0) = 0 := by
    rw [if_neg hog]
  have hjd : (if p.jsonLdCount = 0 then (5 : ℚ) else 0) = 0 := by
    rw [if_neg hjson]
  simp only [calculateSEOScore, ht, hd, hh, hhi, ha, hil, hvp, hca, hogd, hjd]
  have : (100 : ℚ) - (0 + 15 + 15 + 0 + 0 + 0 + 8 + 0 + 0 + 0) = 62 := by
    norm_num
  rw [this]
  have h62 : round (62 : ℚ) = 62 := by
    rw [round_eq, Int.floor_eq_iff]
    constructor
    · push_cast
      norm_num
    · push_cast
      norm_num
  rw [h62]
  rfl

/-- C7 witness: a concrete page with the scenario's features scores 62. -/
theorem c7_witness :
    calculateSEOScore
      { title := String.mk (List.replicate 40 'a')
        metaDescription := ""
        h1Texts := []
        h2Count := 1
        h3Count := 0
        h4Count := 0
        images := [true]
        links := [⟨"/a", "x", "", "", ""⟩]
        inputs := []
        htmlLang := "en"
        hasViewport := false
        hasCanonical := true
        ogCount := 1
        jsonLdCount := 1 } = 62 :=
  c7_seo_score_62 _ (by decide) (by decide) (by decide) (by decide) rfl
    (by intro h; exact absurd h (by decide)) (by decide) (by decide) rfl rfl
    (by decide) (by decide)

/-- C8: a form whose input types include email and password and whose
form text contains "login" (or "sign in", or whose page URL contains
"login") is classified as a Login form by the first rule; the functional
embedding returns at the first matching rule, so no later rule applies. -/
theorem c8_login_classification (inputs : List FormInput)
    (formHtml pageUrl : String)
    (hp : "password" ∈ inputs.map inputTypeOf)
    (he : "email" ∈ inputs.map inputTypeOf)
    (hl : hasSub (strLower formHtml) "login" = true ∨
      hasSub (strLower formHtml) "sign in" = true ∨
      hasSub (strLower pageUrl) "login" = true) :
    classifyForm inputs formHtml pageUrl = "Login Form" := by
  simp only [classifyForm]
  rw [if_pos]
  simp only [Bool.and_eq_true, Bool.or_eq_true, List.contains]
  refine ⟨⟨List.elem_eq_true_of_mem hp, Or.inl (List.elem_eq_true_of_mem he)⟩, ?_⟩
  tauto

/-- C8 witness: the spec scenario (email + password inputs, "Login to
your account", URL path /login) is classified Login, although the form
text would also match the later Search rule if rules were not ordered. -/
theorem c8_witness :
    classifyForm
      [⟨"email", "e", "e", "Email", false⟩,
       ⟨"password", "p", "p", "Password", false⟩]
      "<div>Login to your account</div><input aria-label=\"search\">"
      "https://x.com/login" = "Login Form" :=
  c8_login_classification _ _ _ (by decide) (by decide) (by decide)

/-- C9: for every input page the accessibility score and the SEO score
are integers in [0, 100], and so is the per-form accessibility score. -/
theorem c9_score_boundedness :
    (∀ p : Page, 0 ≤ calculateAccessibilityScore p ∧
      calculateAccessibilityScore p ≤ 100) ∧
    (∀ p : Page, 0 ≤ calculateSEOScore p ∧ calculateSEOScore p ≤ 100) ∧
    (∀ (inputs : List FormInput) (formHtml : String),
      0 ≤ formAccessibilityScore inputs formHtml ∧
        formAccessibilityScore inputs formHtml ≤ 100) := by
  refine ⟨fun p => ⟨le_max_left 0 _, ?_⟩, fun p => ⟨le_max_left 0 _, ?_⟩,
    fun inputs formHtml => ⟨le_max_left 0 _, max_le (by norm_num)
      (min_le_left _ _)⟩⟩
  · apply max_le (by norm_num)
    apply round_sub_le_100
    have h1 := altDeduction_nonneg p (3 / 10) (by norm_num)
    have h2 := h1Deduction_nonneg p
    have h3 := linkNameDeduction_nonneg p
    have h4 := inputLabelDeduction_nonneg p
    have h5 : (0 : ℚ) ≤ if strIsEmpty p.htmlLang then 10 else 0 := by
      split_ifs <;> norm_num
    have h6 : (0 : ℚ) ≤ if skipLinkCount p = 0 then 5 else 0 := by
      split_ifs <;> norm_num
    linarith
  · apply max_le (by norm_num)
    apply round_sub_le_100
    have h1 := titleDeduction_nonneg p
    have h2 := descriptionDeduction_nonneg p
    have h3 := seoH1Deduction_nonneg p
    have h4 : (0 : ℚ) ≤ if (p.h2Count = 0 && (p.h3Count > 0 || p.h4Count > 0))
        = true then 8 else 0 := by
      split_ifs <;> norm_num
    have h5 := altDeduction_nonneg p (3 / 20) (by norm_num)
    have h6 : (0 : ℚ) ≤ if seoInternalLinkCount p = 0 then 10 else 0 := by
      split_ifs <;> norm_num
    have h7 : (0 : ℚ) ≤ if p.hasViewport then 0 else 8 := by
      split_ifs <;> norm_num
    have h8 : (0 : ℚ) ≤ if p.hasCanonical then 0 else 5 := by
      split_ifs <;> norm_num
    have h9 : (0 : ℚ) ≤ if p.ogCount = 0 then 5 else 0 := by
      split_ifs <;> norm_num
    have h10 : (0 : ℚ) ≤ if p.jsonLdCount = 0 then 5 else 0 := by
      split_ifs <;> norm_num
    linarith

/-- The five fixed deductions of the per-form accessibility score total
at most 70, so the score never drops below 30. -/
theorem formAccessibilityScore_ge_30 (inputs : List FormInput)
    (formHtml : String) : 30 ≤ formAccessibilityScore inputs formHtml := by
  simp only [formAccessibilityScore]
  split_ifs <;> decide

/-- C10: every form produced by real extraction (`analyzeForms`) carries
an accessibility sub-score in [30, 100]: the five independent deductions
total at most 20 + 15 + 10 + 15 + 10 = 70 from the starting 100. -/
theorem c10_form_score_floor (specs : List FormSpec) (pageUrl : String)
    (f : FormOut) (hf : f ∈ analyzeForms specs pageUrl) :
    30 ≤ f.accessibility_score ∧ f.accessibility_score ≤ 100 := by
  simp only [analyzeForms, List.mem_filterMap] at hf
  obtain ⟨⟨i, spec⟩, _, hg⟩ := hf
  split at hg
  · cases hg
    exact ⟨formAccessibilityScore_ge_30 _ _,
      (max_le (by norm_num) (min_le_left _ _))⟩
  · cases hg

/-- C10 witness: a concrete unlabeled two-input form scores exactly 30,
inside [30, 100]. -/
theorem c10_witness :
    (⟨"u", 0, 2, ["text"], "GET", "", "General Form", false, 30⟩ : FormOut) ∈
      analyzeForms [⟨[⟨"text", "a", "", "", false⟩, ⟨"text", "b", "", "", false⟩],
        "", "", ""⟩] "u" ∧
    (30 : Int) ≤ (⟨"u", 0, 2, ["text"], "GET", "", "General Form", false,
      30⟩ : FormOut).accessibility_score ∧
    (⟨"u", 0, 2, ["text"], "GET", "", "General Form", false,
      30⟩ : FormOut).accessibility_score ≤ 100 :=
  ⟨by decide,
    (c10_form_score_floor
      [⟨[⟨"text", "a", "", "", false⟩, ⟨"text", "b", "", "", false⟩], "", "", ""⟩]
      "u" ⟨"u", 0, 2, ["text"], "GET", "", "General Form", false, 30⟩
      (by decide)).1,
    (c10_form_score_floor
      [⟨[⟨"text", "a", "", "", false⟩, ⟨"text", "b", "", "", false⟩], "", "", ""⟩]
      "u" ⟨"u", 0, 2, ["text"], "GET", "", "General Form", false, 30⟩
      (by decide)).2⟩

end Xeraud
